import Mathlib

/-!
Verification of the MCP client orchestration core (`src/client/mcp-client/client.py`).

The development shallowly embeds the data model and the operations of the
client: the JSON subset the client round-trips through `json.loads` /
`json.dumps`, the streamed-response aggregation fold of `process_query`, the
textual tool-call extractor `_extract_text_tool_calls`, the tool dispatcher
`_process_tool_calls`, the bounded agent loop of `process_query`, and the
connection manager (`connect_to_local_server`, `load_servers_from_config`).
External effects (the model service stream, provider tool invocations, user
confirmation input, connection attempts) are supplied by explicit environment
records, so each embedded function is a pure, executable Lean definition.
-/

namespace MCP

/-! ## Basic string helpers mirroring Python primitives -/

/-- Membership of `needle` as a contiguous sublist of `hay`
(Python `needle in hay` on strings, on the char-list level). -/
def listStarts : List Char → List Char → Bool
  | [], _ => true
  | _ :: _, [] => false
  | a :: as, b :: bs => a == b && listStarts as bs

/-- Python `needle in hay` for strings. -/
def listInfixOf (needle : List Char) : List Char → Bool
  | [] => listStarts needle []
  | b :: bs => listStarts needle (b :: bs) || listInfixOf needle bs

/-- Python substring containment `needle in hay`. -/
def strContains (hay needle : String) : Bool :=
  listInfixOf needle.toList hay.toList

/-- Concatenation of a list of strings (left fold, `""` base). -/
def strConcat : List String → String
  | [] => ""
  | s :: rest => s ++ strConcat rest

/-- Python `str.isspace` characters relevant to `str.strip()` here. -/
def pyIsSpace (c : Char) : Bool :=
  c == ' ' || c == '\t' || c == '\n' || c == '\r' || c == Char.ofNat 11 || c == Char.ofNat 12

/-- Python `str.strip()`. -/
def pyStrip (s : String) : String :=
  String.mk (((s.toList.dropWhile pyIsSpace).reverse.dropWhile pyIsSpace).reverse)

/-- Python `str.lower()` (ASCII case folding; the non-ASCII characters that
occur in the client's strings are unaffected by `lower`). -/
def pyLower (s : String) : String :=
  String.mk (s.toList.map Char.toLower)

/-- Python `s.startswith(p)`. -/
def pyStartsWith (s p : String) : Bool :=
  listStarts p.toList s.toList

def pyReplaceAux (pat repl : List Char) : Nat → List Char → List Char
  | 0, cs => cs
  | _ + 1, [] => []
  | fuel + 1, c :: cs =>
    if listStarts pat (c :: cs) then
      repl ++ pyReplaceAux pat repl fuel ((c :: cs).drop pat.length)
    else c :: pyReplaceAux pat repl fuel cs

/-- Python `s.replace(pat, repl)` for a non-empty pattern (the client only
replaces the fence markers, which are non-empty). -/
def pyReplace (s pat repl : String) : String :=
  if pat.isEmpty then s
  else String.mk (pyReplaceAux pat.toList repl.toList (s.length + 1) s.toList)

/-- Python `str.splitlines()` restricted to the line enders `\n`, `\r\n`, `\r`
(the only enders that occur in the client's data): a trailing line ender does
not contribute an empty final line. -/
def splitlinesAux : List Char → List Char → List String
  | [], cur => if cur.isEmpty then [] else [String.mk cur.reverse]
  | '\r' :: '\n' :: rest, cur => String.mk cur.reverse :: splitlinesAux rest []
  | '\n' :: rest, cur => String.mk cur.reverse :: splitlinesAux rest []
  | '\r' :: rest, cur => String.mk cur.reverse :: splitlinesAux rest []
  | c :: rest, cur => splitlinesAux rest (c :: cur)

/-- Python `str.splitlines()`. -/
def pySplitlines (s : String) : List String :=
  splitlinesAux s.toList []

/-! ## JSON values

The JSON subset the client exchanges: `json.loads` / `json.dumps` over
null, booleans, integers, strings, arrays and objects (the client's tool
argument payloads and task-handle payloads are all in this fragment;
fractional numbers never occur in the embedded code paths). -/

inductive JValue where
  | jsNull : JValue
  | jsBool (flag : Bool) : JValue
  | jsInt (value : Int) : JValue
  | jsStr (text : String) : JValue
  | jsArr (items : List JValue) : JValue
  | jsObj (entries : List (String × JValue)) : JValue
deriving Repr

mutual

def JValue.beq : JValue → JValue → Bool
  | .jsNull, .jsNull => true
  | .jsBool a, .jsBool b => a == b
  | .jsInt a, .jsInt b => a == b
  | .jsStr a, .jsStr b => a == b
  | .jsArr a, .jsArr b => JValue.beqList a b
  | .jsObj a, .jsObj b => JValue.beqFields a b
  | _, _ => false

def JValue.beqList : List JValue → List JValue → Bool
  | [], [] => true
  | a :: as, b :: bs => JValue.beq a b && JValue.beqList as bs
  | _, _ => false

def JValue.beqFields : List (String × JValue) → List (String × JValue) → Bool
  | [], [] => true
  | (ka, va) :: as, (kb, vb) :: bs => ka == kb && JValue.beq va vb && JValue.beqFields as bs
  | _, _ => false

end

instance : BEq JValue := ⟨JValue.beq⟩

/-- Python truthiness of a decoded JSON value (`if not name: ...`). -/
def jTruthy : JValue → Bool
  | .jsNull => false
  | .jsBool b => b
  | .jsInt n => n != 0
  | .jsStr s => !s.isEmpty
  | .jsArr xs => !xs.isEmpty
  | .jsObj fs => !fs.isEmpty

/-- Field lookup on a decoded JSON object, Python `dict.get`. -/
def jGet (fields : List (String × JValue)) (k : String) : Option JValue :=
  (fields.find? (fun p => p.1 == k)).map (fun p => p.2)

/-- Insertion into a decoded object: an existing key keeps its position and is
overwritten (CPython `dict` semantics during `json` decoding). -/
def jInsert (fields : List (String × JValue)) (k : String) (v : JValue) :
    List (String × JValue) :=
  if fields.any (fun p => p.1 == k) then
    fields.map (fun p => if p.1 == k then (k, v) else p)
  else fields ++ [(k, v)]

/-! ### `json.loads` (recursive-descent decoder, fuelled) -/

/-- JSON whitespace (`space`, `\t`, `\n`, `\r`). -/
def isJWs (c : Char) : Bool :=
  c == ' ' || c == '\t' || c == '\n' || c == '\r'

def skipWs : List Char → List Char
  | [] => []
  | c :: cs => if isJWs c then skipWs cs else c :: cs

def hexVal (c : Char) : Option Nat :=
  let n := c.toNat
  if 48 ≤ n && n ≤ 57 then some (n - 48)
  else if 97 ≤ n && n ≤ 102 then some (n - 87)
  else if 65 ≤ n && n ≤ 70 then some (n - 55)
  else none

def jEscOf : Char → Option Char
  | '"' => some '"'
  | '\\' => some '\\'
  | '/' => some '/'
  | 'b' => some (Char.ofNat 8)
  | 'f' => some (Char.ofNat 12)
  | 'n' => some '\n'
  | 'r' => some '\r'
  | 't' => some '\t'
  | _ => none

/-- Body of a JSON string literal after the opening quote; returns the decoded
characters and the remainder after the closing quote. -/
def jStrBody : Nat → List Char → Option (List Char × List Char)
  | 0, _ => none
  | _ + 1, [] => none
  | fuel + 1, c :: rest =>
    if c == '"' then some ([], rest)
    else if c == '\\' then
      match rest with
      | [] => none
      | e :: rest2 =>
        if e == 'u' then
          match rest2 with
          | h1 :: h2 :: h3 :: h4 :: rest3 =>
            match hexVal h1, hexVal h2, hexVal h3, hexVal h4 with
            | some a, some b, some c2, some d =>
              match jStrBody fuel rest3 with
              | some (cs, rem) => some (Char.ofNat (((a * 16 + b) * 16 + c2) * 16 + d) :: cs, rem)
              | none => none
            | _, _, _, _ => none
          | _ => none
        else
          match jEscOf e with
          | some ec =>
            match jStrBody fuel rest2 with
            | some (cs, rem) => some (ec :: cs, rem)
            | none => none
          | none => none
    else
      match jStrBody fuel rest with
      | some (cs, rem) => some (c :: cs, rem)
      | none => none

/-- Natural-number literal (digit run). -/
def parseJNat (cs : List Char) : Option (Nat × List Char) :=
  go cs 0 false
where
  go : List Char → Nat → Bool → Option (Nat × List Char)
    | c :: rest, acc, seen =>
      if '0' ≤ c && c ≤ '9' then go rest (acc * 10 + (c.toNat - '0'.toNat)) true
      else if seen then some (acc, c :: rest) else none
    | [], acc, seen => if seen then some (acc, []) else none

mutual

def parseJVal : Nat → List Char → Option (JValue × List Char)
  | 0, _ => none
  | fuel + 1, cs =>
    match cs with
    | 'n' :: 'u' :: 'l' :: 'l' :: rest => some (.jsNull, rest)
    | 't' :: 'r' :: 'u' :: 'e' :: rest => some (.jsBool true, rest)
    | 'f' :: 'a' :: 'l' :: 's' :: 'e' :: rest => some (.jsBool false, rest)
    | '"' :: rest =>
      match jStrBody (rest.length + 1) rest with
      | some (body, rem) => some (.jsStr (String.mk body), rem)
      | none => none
    | '[' :: rest =>
      match skipWs rest with
      | ']' :: rest2 => some (.jsArr [], rest2)
      | rest2 => parseJArr fuel rest2 []
    | '{' :: rest =>
      match skipWs rest with
      | '}' :: rest2 => some (.jsObj [], rest2)
      | rest2 => parseJObj fuel rest2 []
    | '-' :: rest =>
      match parseJNat rest with
      | some (n, rem) => some (.jsInt (-(n : Int)), rem)
      | none => none
    | _ =>
      match parseJNat cs with
      | some (n, rem) => some (.jsInt (n : Int), rem)
      | none => none

/-- Array elements after the opening bracket (first element pending). -/
def parseJArr : Nat → List Char → List JValue → Option (JValue × List Char)
  | 0, _, _ => none
  | fuel + 1, cs, acc =>
    match parseJVal fuel cs with
    | none => none
    | some (v, rest) =>
      match skipWs rest with
      | ',' :: rest2 => parseJArr fuel (skipWs rest2) (acc ++ [v])
      | ']' :: rest2 => some (.jsArr (acc ++ [v]), rest2)
      | _ => none

/-- Object members after the opening brace (first member pending). -/
def parseJObj : Nat → List Char → List (String × JValue) → Option (JValue × List Char)
  | 0, _, _ => none
  | fuel + 1, cs, acc =>
    match cs with
    | '"' :: rest =>
      match jStrBody (rest.length + 1) rest with
      | none => none
      | some (key, rest2) =>
        match skipWs rest2 with
        | ':' :: rest3 =>
          match parseJVal fuel (skipWs rest3) with
          | none => none
          | some (v, rest4) =>
            let acc2 := jInsert acc (String.mk key) v
            match skipWs rest4 with
            | ',' :: rest5 => parseJObj fuel (skipWs rest5) acc2
            | '}' :: rest5 => some (.jsObj acc2, rest5)
            | _ => none
        | _ => none
    | _ => none

end

/-- Embedding of `json.loads` on the client's JSON fragment: `none` models a
raised `json.JSONDecodeError`. -/
def jsonLoads (s : String) : Option JValue :=
  let cs := skipWs s.toList
  match parseJVal (2 * cs.length + 4) cs with
  | some (v, rest) => if (skipWs rest).isEmpty then some v else none
  | none => none

/-! ### `json.dumps(..., ensure_ascii=False)` -/

def hexDigit (n : Nat) : String :=
  String.singleton (if n < 10 then Char.ofNat ('0'.toNat + n) else Char.ofNat ('a'.toNat + n - 10))

def jEscChar (c : Char) : String :=
  if c == '"' then "\\\""
  else if c == '\\' then "\\\\"
  else if c == '\n' then "\\n"
  else if c == '\r' then "\\r"
  else if c == '\t' then "\\t"
  else if c.toNat == 8 then "\\b"
  else if c.toNat == 12 then "\\f"
  else if c.toNat < 32 then "\\u00" ++ hexDigit (c.toNat / 16) ++ hexDigit (c.toNat % 16)
  else String.singleton c

def jStrLit (s : String) : String :=
  "\"" ++ strConcat (s.toList.map jEscChar) ++ "\""

mutual

def jsonDumps : JValue → String
  | .jsNull => "null"
  | .jsBool true => "true"
  | .jsBool false => "false"
  | .jsInt n => toString n
  | .jsStr s => jStrLit s
  | .jsArr xs => "[" ++ jsonDumpsArr xs ++ "]"
  | .jsObj fs => "\x7b" ++ jsonDumpsObj fs ++ "\x7d"

def jsonDumpsArr : List JValue → String
  | [] => ""
  | [x] => jsonDumps x
  | x :: y :: xs => jsonDumps x ++ ", " ++ jsonDumpsArr (y :: xs)

def jsonDumpsObj : List (String × JValue) → String
  | [] => ""
  | [(k, v)] => jStrLit k ++ ": " ++ jsonDumps v
  | (k, v) :: f :: fs => jStrLit k ++ ": " ++ jsonDumps v ++ ", " ++ jsonDumpsObj (f :: fs)

end

mutual

/-- Python `repr` of a decoded JSON value (only used through `pyStr`). -/
def pyRepr : JValue → String
  | .jsNull => "None"
  | .jsBool true => "True"
  | .jsBool false => "False"
  | .jsInt n => toString n
  | .jsStr s => "'" ++ s ++ "'"
  | .jsArr xs => "[" ++ pyReprArr xs ++ "]"
  | .jsObj fs => "\x7b" ++ pyReprObj fs ++ "\x7d"

def pyReprArr : List JValue → String
  | [] => ""
  | [x] => pyRepr x
  | x :: y :: xs => pyRepr x ++ ", " ++ pyReprArr (y :: xs)

def pyReprObj : List (String × JValue) → String
  | [] => ""
  | [(k, v)] => "'" ++ k ++ "': " ++ pyRepr v
  | (k, v) :: f :: fs => "'" ++ k ++ "': " ++ pyRepr v ++ ", " ++ pyReprObj (f :: fs)

end

/-- Python `str(...)` of a decoded JSON value. -/
def pyStr : JValue → String
  | .jsStr s => s
  | v => pyRepr v

/-! ## Response Aggregator

`process_query` consumes the model stream chunk by chunk; each chunk's delta
may carry a text piece and/or a list of partial tool-call deltas keyed by an
integer `index`.  The merge logic is the loop at `client.py` lines 445-471. -/

/-- One partial tool-call delta of a stream chunk
(`delta.tool_calls[i]`: `index`, `id`, `function.name`, `function.arguments`). -/
structure ToolCallDelta where
  index : Int
  id : Option String := none
  name : Option String := none
  arguments : String := ""
deriving Repr, DecidableEq

/-- One stream chunk's delta (`chunk.choices[0].delta`). -/
structure StreamDelta where
  reasoning : Option String := none
  content : Option String := none
  toolCalls : List ToolCallDelta := []
deriving Repr, DecidableEq

/-- Python truthiness of an optional string (`if tc.function.name:`). -/
def pyTruthyOptStr : Option String → Bool
  | none => false
  | some s => !s.isEmpty

/-- Merging one incoming delta into the existing record for the same index:
`existing.function.arguments += tc.function.arguments` and, when the incoming
name chunk is truthy, `existing.function.name = (existing.function.name or "")
+ tc.function.name`. -/
def mergeTC (x tc : ToolCallDelta) : ToolCallDelta :=
  if pyTruthyOptStr tc.name then
    { x with arguments := x.arguments ++ tc.arguments,
             name := some ((x.name.getD "") ++ (tc.name.getD "")) }
  else
    { x with arguments := x.arguments ++ tc.arguments }

/-- In-place update of the first list element satisfying `p`
(the `next((x for x in tool_calls if x.index == tc.index), None)` mutation). -/
def updFirst (p : ToolCallDelta → Bool) (f : ToolCallDelta → ToolCallDelta) :
    List ToolCallDelta → List ToolCallDelta
  | [] => []
  | x :: xs => if p x then f x :: xs else x :: updFirst p f xs

/-- Processing one incoming tool-call delta against the accumulated records. -/
def mergeOne (acc : List ToolCallDelta) (tc : ToolCallDelta) : List ToolCallDelta :=
  if acc.any (fun x => x.index == tc.index) then
    updFirst (fun x => x.index == tc.index) (fun x => mergeTC x tc) acc
  else acc ++ [tc]

/-- Processing one stream chunk: text is appended to the accumulated content,
tool-call deltas are merged in arrival order. -/
def aggregateStep (s : String × List ToolCallDelta) (f : StreamDelta) :
    String × List ToolCallDelta :=
  let s1 := if pyTruthyOptStr f.content then s.1 ++ (f.content.getD "") else s.1
  (s1, f.toolCalls.foldl mergeOne s.2)

/-- The fragment fold of `process_query` (lines 445-471): accumulated plain
text and merged tool-call records. -/
def aggregate (frags : List StreamDelta) : String × List ToolCallDelta :=
  frags.foldl aggregateStep ("", [])

/-- All tool-call deltas of a fragment sequence, in arrival order. -/
def allDeltas (frags : List StreamDelta) : List ToolCallDelta :=
  (frags.map (fun f => f.toolCalls)).flatten

/-- Concatenation, in arrival order, of the argument chunks carried by deltas
with index `i`. -/
def argsConcatAt (ds : List ToolCallDelta) (i : Int) : String :=
  strConcat ((ds.filter (fun d => d.index == i)).map (fun d => d.arguments))

/-- Concatenation, in arrival order, of the name chunks carried by deltas with
index `i` (an absent chunk contributes the empty string). -/
def nameConcatAt (ds : List ToolCallDelta) (i : Int) : String :=
  strConcat ((ds.filter (fun d => d.index == i)).map (fun d => d.name.getD ""))

/-- The records of the accumulator that carry index `i`. -/
def recsAt (acc : List ToolCallDelta) (i : Int) : List ToolCallDelta :=
  acc.filter (fun x => x.index == i)

/-! ## Textual Intent Extractor (`_extract_text_tool_calls`, lines 663-708) -/

/-- A recovered textual tool-call record (`{"id", "name", "arguments"}`). -/
structure TextToolCall where
  id : String
  name : String
  arguments : String
deriving Repr, DecidableEq

/-- Deterministic stand-in for `uuid.uuid4()`: fresh ids are drawn from a
counter threaded through the embedding (ids are opaque correlation tokens). -/
def uuidStr (n : Nat) : String :=
  "uuid-" ++ toString n

def tickChar : Char := ("`").toList.headD ' '

/-- Does the char list start with a ``` fence? -/
def startsTicks (cs : List Char) : Bool :=
  listStarts (("```").toList) cs

/-- Suffix after the first ``` fence. -/
def afterTicks : List Char → Option (List Char)
  | [] => none
  | c :: rest =>
    if startsTicks (c :: rest) then some ((c :: rest).drop 3) else afterTicks rest

/-- Split at the next ``` fence: text before it and suffix after it. -/
def splitAtTicks : List Char → Option (List Char × List Char)
  | [] => none
  | c :: rest =>
    if startsTicks (c :: rest) then some ([], (c :: rest).drop 3)
    else
      match splitAtTicks rest with
      | some (pre, post) => some (c :: pre, post)
      | none => none

/-- Fenced code blocks, in order: the operational content of
`re.findall(r"```(?:json)?\s*([\s\S]*?)\s*```", buf)` — each block is the text
between an opening fence (with an optional `json` tag) and the next fence,
with surrounding whitespace trimmed; scanning resumes after the closing
fence. -/
def findCodeBlocksAux : Nat → List Char → List String
  | 0, _ => []
  | fuel + 1, cs =>
    match afterTicks cs with
    | none => []
    | some rest =>
      let rest2 := if listStarts (("json").toList) rest then rest.drop 4 else rest
      match splitAtTicks rest2 with
      | none => []
      | some (content, post) =>
        pyStrip (String.mk content) :: findCodeBlocksAux fuel post

def findCodeBlocks (s : String) : List String :=
  findCodeBlocksAux (s.length + 1) s.toList

/-- Conversion of a recovered record back into a candidate object, as the
recursive call's returned dicts enter the caller's `candidates` list. -/
def ttcToObj (r : TextToolCall) : List (String × JValue) :=
  [("id", .jsStr r.id), ("name", .jsStr r.name), ("arguments", .jsStr r.arguments)]

/-- One iteration of the final result loop of `_extract_text_tool_calls`:
skip a falsy `name`; serialize dict/list `arguments` with `json.dumps`,
stringify anything else with `str`. -/
def extractOne (ctr : Nat) (obj : List (String × JValue)) :
    Option TextToolCall × Nat :=
  match jGet obj "name" with
  | none => (none, ctr)
  | some nv =>
    if !(jTruthy nv) then (none, ctr)
    else
      let arguments := (jGet obj "arguments").getD (.jsObj [])
      let argsStr :=
        match arguments with
        | .jsObj fs => jsonDumps (.jsObj fs)
        | .jsArr xs => jsonDumps (.jsArr xs)
        | v => pyStr v
      (some ⟨"call_" ++ uuidStr ctr, pyStr nv, argsStr⟩, ctr + 1)

/-- Is a decoded line a candidate object (a dict with both a `name` and an
`arguments` key)? -/
def candidateFields : Option JValue → Option (List (String × JValue))
  | some (.jsObj fields) =>
    if (jGet fields "name").isSome && (jGet fields "arguments").isSome then some fields
    else none
  | _ => none

/-- `_extract_text_tool_calls`, fuelled for the recursion into fenced blocks
(each block is strictly shorter than the enclosing text).  The `Nat` argument
and result thread the fresh-id counter. -/
def extractAux : Nat → Nat → String → List TextToolCall × Nat
  | 0, ctr, _ => ([], ctr)
  | fuel + 1, ctr, text =>
    let buf := pyStrip text
    if buf.isEmpty then ([], ctr)
    else if !(strContains buf ("arguments")) then ([], ctr)
    else
      let step1 :=
        (findCodeBlocks buf).foldl
          (fun (acc : List (List (String × JValue)) × Nat) block =>
            let block := pyStrip block
            if block.isEmpty then acc
            else
              let (recs, ctr2) := extractAux fuel acc.2 block
              (acc.1 ++ recs.map ttcToObj, ctr2))
          ([], ctr)
      let ctrA := step1.2
      let candidates2 :=
        step1.1 ++
          (pySplitlines buf).foldl
            (fun acc line =>
              let line := pyStrip line
              if line.isEmpty || pyStartsWith line ("```") then acc
              else
                match candidateFields (jsonLoads line) with
                | some fields => acc ++ [fields]
                | none => acc)
            []
      let candidates3 :=
        if candidates2.isEmpty then
          let cleaned := pyStrip (pyReplace (pyReplace buf ("```json") ("")) ("```") (""))
          match candidateFields (jsonLoads cleaned) with
          | some fields => [fields]
          | none => []
        else candidates2
      candidates3.foldl
        (fun (acc : List TextToolCall × Nat) obj =>
          match extractOne acc.2 obj with
          | (some r, c2) => (acc.1 ++ [r], c2)
          | (none, c2) => (acc.1, c2))
        ([], ctrA)

/-- `_extract_text_tool_calls(text)` with the fresh-id counter `ctr`. -/
def extractTextToolCalls (text : String) (ctr : Nat) : List TextToolCall × Nat :=
  extractAux (text.length + 1) ctr text

/-! ## Conversation messages and the system prompt -/

/-- `SYSTEM_PROMPT` of `client.py` (the literal constant). -/
def systemPrompt : String :=
  "你是一个智能农业决策助手。你的目标是协调多个工具（天气、灌溉、浏览器、文件系统）来为用户提供精准的农业建议。\n\n**核心工作流程 (SOP)：**\n\n当用户询问关于作物灌溉或生长环境的问题时（例如：\"曲靖今天天气怎么样？可以结合传感器告诉我小麦需要灌溉吗？\"）：\n\n1.  **第一步：获取上下文信息**\n    *   调用 `irrigation.get_sensor_data` 获取当前的土壤湿度和环境温湿度。\n    *   调用 `weather.get_observe` 或 `weather.get_forecast_week` 获取指定地点的天气。\n    \n\n2.  **第二步：获取知识（如果需要）**\n    *   如果本地工具数据不足以得出结论，或用户明确要求\"查一下/搜索/外部资料\"：\n    *   调用 `browser_use` 工具访问搜索引擎页面（例如 `https://www.bing.com/search?q=小麦+需水量`），并在 `action` 里说明要提取/总结的要点。\n    *   若 `browser_use` 返回的是 task_id（异步模式），则继续调用 `browser_get_result` 获取最终结果。\n\n3.  **第三步：综合分析与建议**\n    *   **优先级规则**：**土壤湿度**是最高优先级的判断依据。\n    *   如果土壤湿度低于 20%（尤其是 0%），这属于**严重缺水**，除非当前正在下暴雨，否则**必须建议立即灌溉**。此时气温低或多云都不是拒绝灌溉的理由。\n    *   结合 **天气**（是否有雨？）、**土壤湿度**（是否干燥？）、**作物习性**（是否处于需水期？）。\n    *   给出明确的建议：是否需要灌溉？如果需要，灌溉的原因是什么？\n\n4.  **第四步：执行行动（仅在用户授权后）**\n    *   **开启水泵**：只有当用户明确说\"打开水泵\"、\"浇水\"时，才调用 `irrigation.control_pump(turn_on=True)`。\n    *   **关闭水泵**：当用户说\"关闭水泵\"、\"停止灌溉\"时，应立即调用 `irrigation.control_pump(turn_on=False)`。\n    *   **禁止**在用户没有明确指令的情况下自动开启水泵。\n\n**重要规则：**\n*   **允许多工具链**：针对同一个用户问题，可以连续调用多个工具来收集信息（按顺序执行，拿到一个结果后继续执行下一个），直到足够回答为止。\n*   **优先自动收集**：若问题需要天气与土壤信息，直接调用 `weather.*` 与 `irrigation.*` 获取数据，不要反问用户是否要查。\n*   **必要时再上网**：只有在本地工具数据不足以得出结论时，才使用 `browser-use` 获取公开信息补充依据。\n*   **不要拒绝联网**：你可以通过 `browser_use` 工具进行外部检索；不要声称\"无法访问外部搜索引擎/网络请求\"。\n*   **数据驱动**：不要瞎猜。必须基于工具返回的真实数据说话。\n\n**回复风格指南：**\n\n你需要像一个专业的农业顾问一样，用自然、流畅的语言与用户交流。不要使用固定模板，而是根据实际情况灵活组织语言。\n\n**必须包含的核心信息：**\n1. **当前环境状况**：清晰说明实时天气、传感器数据（土壤湿度、温度、空气湿度）和设备状态\n2. **作物需求分析**：结合作物类型和生长阶段，说明当前的水分需求情况\n3. **决策建议**：基于数据给出明确的灌溉建议，并解释原因\n4. **操作指引**：告诉用户接下来该做什么\n\n**决策逻辑优先级：**\n- 土壤湿度是最关键的指标\n- 土壤湿度 < 20%：严重缺水，通常需要立即灌溉（除非正在下大雨）\n- 土壤湿度 20-40%：可能需要灌溉，结合天气预报和作物需求判断\n- 土壤湿度 > 60%：水分充足，一般不需要灌溉\n\n**语言风格要求：**\n- 用自然、专业但易懂的语言表达\n- 根据具体情况灵活调整表述方式\n- 重要信息可以用 emoji 和加粗强调，但不要过度使用\n- 避免机械地填充模板，要像真人顾问一样思考和表达\n- 当情况紧急时（如土壤湿度0%），语气要更加明确和果断\n- 当情况正常时，可以更加从容和详细地分析\n\n**示例风格（仅供参考，不要照搬）：**\n\"根据刚才获取的数据，曲靖目前气温11.5°C，天气晴朗。但是传感器显示土壤湿度为0%，这是一个非常严重的缺水信号。\n\n对于玉米来说，整个生长期都需要充足的水分供应，尤其是在拔节期和抽穗期。当前土壤完全干燥的状态会严重影响作物生长，甚至可能导致植株萎蔫。\n\n虽然气温不高，但土壤湿度0%意味着根系已经无法吸收到水分。查看未来一周的天气预报，主要是多云天气，短期内没有降雨计划。因此**我强烈建议立即开启灌溉**。\n\n如果你同意，请回复\"开启水泵\"，我会立即启动灌溉系统。\"\n"

/-- A role-tagged conversation message. -/
inductive Msg where
  | system (content : String)
  | user (content : String)
  | assistant (content : String)
  | assistantToolCalls (calls : List (String × String × String))
  | toolResult (content : String) (tool_call_id : Option String)
deriving Repr, DecidableEq

def isUserMsg : Msg → Bool
  | .user _ => true
  | _ => false

def isToolMsg : Msg → Bool
  | .toolResult _ _ => true
  | _ => false

/-- `msg.get("content", "")`. -/
def msgContent : Msg → String
  | .system c => c
  | .user c => c
  | .assistant c => c
  | .assistantToolCalls _ => ""
  | .toolResult c _ => c

/-! ## Tool Dispatcher (`_process_tool_calls`, lines 557-641)

Provider effects are supplied by an environment: `confirm` enumerates the
replies the user gives to successive `input()` confirmation prompts, `call`
gives the outcome of `session.call_tool` for a (server, tool, arguments)
triple, and `browserWait` abstracts `_maybe_wait_browser_use_result` (whose
poll loop depends on wall-clock time) as a transformation of the returned
text.  Invocations of `session.call_tool` are recorded in a trace so that
"the provider is never invoked" is a provable statement. -/

/-- A catalog entry of `tools_map` (name ↦ server, description, schema). -/
structure ToolInfo where
  server_id : String
  description : String := ""
  inputSchema : JValue := .jsObj []
deriving Repr

/-- The client state read by the dispatcher: the tool catalog and the session
registry (a session is identified by its server id; a *closed* session is one
whose `call_tool` raises, which the `call` environment models). -/
structure Client where
  toolsMap : List (String × ToolInfo)
  sessions : List String
  toolTimeout : Nat := 120
deriving Repr

/-- Outcome of one `session.call_tool` invocation under `asyncio.wait_for`. -/
inductive CallOutcome where
  | ok (text : String)
  | timeout
  | exn (msg : String)
deriving Repr, DecidableEq

/-- A recorded provider invocation: server id, tool name, decoded arguments. -/
abbrev PCall := String × String × JValue

structure Env where
  stream : Nat → List StreamDelta
  confirm : Nat → String
  call : String → String → JValue → CallOutcome
  browserWait : String → String

/-- A normalized tool call (`_normalize_tool_call`): correlation id, tool
name, raw argument string.  Structured deltas may have `None` in either of
the first two fields. -/
structure NormCall where
  id : Option String
  name : Option String
  arguments : String
deriving Repr, DecidableEq

/-- Python `f"{x}"` of an optional string. -/
def pyShowOptStr : Option String → String
  | none => "None"
  | some s => s

/-- One `{"role": "tool", ...}` entry. -/
structure ToolResultEntry where
  content : String
  tool_call_id : Option String
deriving Repr, DecidableEq

/-- Result of dispatching: the produced tool-result entries, the trace of
provider invocations, and the next confirmation-prompt index; `keyError`
models the uncaught `KeyError` of `self.sessions[server_id]` (line 586),
which aborts the whole dispatch loop. -/
inductive BatchOut where
  | ok (entries : List ToolResultEntry) (calls : List PCall) (pc : Nat)
  | keyError (calls : List PCall) (pc : Nat)
deriving Repr

def deniedContent (toolName : String) : String :=
  "User denied the execution of " ++ toolName ++ ". The pump state remains unchanged."

def unknownToolContent (toolName : String) : String :=
  "错误：未找到工具 " ++ toolName ++ " 的配置信息。"

def invalidJsonContent (rawArgs : String) : String :=
  "Error: Invalid JSON arguments received: " ++ rawArgs

def timeoutContent (toolName : String) (toolTimeout : Nat) : String :=
  "Error: 工具 " ++ toolName ++ " 调用超时 (" ++ toString toolTimeout ++ "秒)"

def exnContent (toolName : String) (msg : String) : String :=
  "Error: 调用工具 " ++ toolName ++ " 时出错: " ++ msg

/-- The loop body of `_process_tool_calls` for one tool call. -/
def dispatchOne (c : Client) (env : Env) (pc : Nat) (tc : NormCall) : BatchOut :=
  match jsonLoads tc.arguments with
  | none => .ok [⟨invalidJsonContent tc.arguments, tc.id⟩] [] pc
  | some toolArgs =>
    match tc.name with
    | none => .ok [⟨unknownToolContent (pyShowOptStr tc.name), tc.id⟩] [] pc
    | some toolName =>
      match (c.toolsMap.find? (fun p => p.1 == toolName)).map (fun p => p.2) with
      | none => .ok [⟨unknownToolContent toolName, tc.id⟩] [] pc
      | some info =>
        if !(c.sessions.contains info.server_id) then .keyError [] pc
        else
          let invoke : Nat → BatchOut := fun pcN =>
            match env.call info.server_id toolName toolArgs with
            | .ok text =>
              let text :=
                if toolName == "browser_use" then env.browserWait text else text
              .ok [⟨text, tc.id⟩] [(info.server_id, toolName, toolArgs)] pcN
            | .timeout =>
              .ok [⟨timeoutContent toolName c.toolTimeout, tc.id⟩]
                [(info.server_id, toolName, toolArgs)] pcN
            | .exn m =>
              .ok [⟨exnContent toolName m, tc.id⟩]
                [(info.server_id, toolName, toolArgs)] pcN
          if toolName == "control_pump" then
            let reply := pyLower (pyStrip (env.confirm pc))
            if !(["y", "yes"].contains reply) then
              .ok [⟨deniedContent toolName, tc.id⟩] [] (pc + 1)
            else invoke (pc + 1)
          else invoke pc

/-- `_process_tool_calls`: sequential dispatch, entries concatenated in call
order; a `KeyError` aborts the loop (pending entries are lost). -/
def processToolCalls (c : Client) (env : Env) (pc : Nat) :
    List NormCall → BatchOut
  | [] => .ok [] [] pc
  | tc :: rest =>
    match dispatchOne c env pc tc with
    | .keyError calls pc2 => .keyError calls pc2
    | .ok es cs pc2 =>
      match processToolCalls c env pc2 rest with
      | .ok es2 cs2 pc3 => .ok (es ++ es2) (cs ++ cs2) pc3
      | .keyError cs2 pc3 => .keyError (cs ++ cs2) pc3

/-! ## Forced-action heuristics (`_decide_forced_action` and helpers) -/

def isUnreservedByte (n : Nat) : Bool :=
  (48 ≤ n && n ≤ 57) || (65 ≤ n && n ≤ 90) || (97 ≤ n && n ≤ 122) ||
    n == 45 || n == 46 || n == 95 || n == 126

def hexUpper (n : Nat) : String :=
  String.singleton (if n < 10 then Char.ofNat (48 + n) else Char.ofNat (65 + n - 10))

/-- `urllib.parse.quote_plus` (UTF-8 percent-encoding, space as `+`). -/
def quotePlus (s : String) : String :=
  strConcat (s.toUTF8.toList.map (fun b =>
    let n := b.toNat
    if n == 32 then "+"
    else if isUnreservedByte n then String.singleton (Char.ofNat n)
    else "%" ++ hexUpper (n / 16) ++ hexUpper (n % 16)))

/-- `_build_search_url`. -/
def buildSearchUrl (query : String) : String :=
  "https://www.bing.com/search?q=" ++ quotePlus query

/-- `_should_force_browser_search`. -/
def shouldForceBrowserSearch (c : Client) (userQuery assistantText : String) : Bool :=
  if (c.toolsMap.find? (fun p => p.1 == "browser_use")).isNone then false
  else
    let q := pyLower userQuery
    let t := pyLower assistantText
    let wantSearch :=
      ["查一下", "搜索", "检索", "查找", "定义", "是什么", "什么意思"].any
        (fun k => strContains q k)
    let refused :=
      (["无法", "不能", "不可以"].any (fun k => strContains t k)) &&
        (["外部", "搜索引擎", "网络请求", "联网", "浏览器"].any (fun k => strContains t k))
    wantSearch && refused

/-- `_has_sensor_snapshot_since_last_user`: is there a tool message containing
`土壤湿度` after the last user message? -/
def hasSensorSnapshotSinceLastUser (hist : List Msg) : Bool :=
  let sinceLastUser := (hist.reverse.takeWhile (fun m => !(isUserMsg m))).reverse
  sinceLastUser.any (fun m => isToolMsg m && strContains (msgContent m) ("土壤湿度"))

/-- `_should_force_sensor_data`. -/
def shouldForceSensorData (c : Client) (hist : List Msg) (userQuery assistantText : String) :
    Bool :=
  let aboutIrrigation :=
    ["灌溉", "浇水", "开泵", "需要水", "缺水"].any (fun k => strContains userQuery k)
  if !aboutIrrigation then false
  else if (c.toolsMap.find? (fun p => p.1 == "get_sensor_data")).isNone then false
  else if hasSensorSnapshotSinceLastUser hist then false
  else
    let userAskedSensor :=
      ["传感器", "土壤", "土壤湿度", "水分", "结合"].any (fun k => strContains userQuery k)
    let askingSensor :=
      ["土壤湿度", "传感器", "土壤水分"].any (fun k => strContains assistantText k)
    userAskedSensor || askingSensor

/-- A forced tool action (the only `type` the source ever constructs is
`"tool"`; the `final_text` / `followup_prompt` branches of `process_query`
are dead code). -/
structure ForcedTool where
  name : String
  arguments : JValue
  notice : String
deriving Repr

/-- `_decide_forced_action` (its `forced_final_answer_attempted` parameter is
accepted and ignored, as in the source). -/
def decideForcedAction (c : Client) (hist : List Msg) (userQuery assistantText : String)
    (forcedFinalAnswerAttempted : Bool) : Option ForcedTool :=
  if shouldForceBrowserSearch c userQuery assistantText then
    some ⟨"browser_use",
      .jsObj [("url", .jsStr (buildSearchUrl userQuery)),
            ("action", .jsStr ("搜索并用中文总结：" ++ userQuery ++
              "。优先给出清晰定义/要点，附上关键出处信息（网站/标题）。"))],
      "[系统] 检测到模型未调用浏览器工具，已自动改用 browser_use 进行外部检索..."⟩
  else if shouldForceSensorData c hist userQuery assistantText then
    some ⟨"get_sensor_data", .jsObj [],
      "[系统] 已自动获取传感器数据（get_sensor_data）..."⟩
  else none

/-! ## The Agent Loop (`process_query`, lines 401-549) -/

/-- Local loop variables of `process_query` together with the conversation
history: `cycles` is `tool_cycle_count`, `k` counts model-stream requests,
`pc` counts consumed confirmation prompts, `uc` counts generated fresh ids,
`attempted` is `forced_final_answer_attempted`. -/
structure LoopSt where
  history : List Msg
  cycles : Nat
  k : Nat
  pc : Nat
  uc : Nat
  attempted : Bool
deriving Repr

def loopDiagMsg : String :=
  "系统检测到循环调用，已停止执行。请尝试重新表述您的问题或分步骤提出需求。"

def toolFailMsg : String :=
  "工具调用失败，请检查参数或重试。"

def toNormOfDelta (d : ToolCallDelta) : NormCall :=
  ⟨d.id, d.name, d.arguments⟩

def toNormOfText (r : TextToolCall) : NormCall :=
  ⟨some r.id, some r.name, r.arguments⟩

def entryMsg (e : ToolResultEntry) : Msg :=
  .toolResult e.content e.tool_call_id

/-- Outcome of one loop iteration: `ret` leaves the loop with an answer,
`next` continues, `exn` models the uncaught `KeyError` propagating out of
`process_query`.  Each outcome reports the resulting conversation history,
the provider invocations of the iteration, and (for `ret`/`next`) whether the
iteration dispatched a tool-call cycle through the `has_tool_calls` branch. -/
inductive CycleOut where
  | ret (answer : String) (history : List Msg) (calls : List PCall) (dispatched : Bool)
  | next (st : LoopSt) (calls : List PCall) (dispatched : Bool)
  | exn (history : List Msg) (calls : List PCall)
deriving Repr

/-- One iteration of the `while True` loop of `process_query`. -/
def processCycle (c : Client) (env : Env) (query : String) (st : LoopSt) : CycleOut :=
  let frags := env.stream st.k
  let agg := aggregate frags
  let finalContent := agg.1
  let structuredTC := frags.any (fun f => !f.toolCalls.isEmpty)
  let ext := if structuredTC then ([], st.uc) else extractTextToolCalls finalContent st.uc
  let interceptedTC := !structuredTC && !ext.1.isEmpty
  let hasTC := structuredTC || interceptedTC
  let uc1 := ext.2
  if hasTC then
    let cycles1 := st.cycles + 1
    if cycles1 > 10 then .ret loopDiagMsg st.history [] false
    else
      let norm :=
        if structuredTC then agg.2.map toNormOfDelta else ext.1.map toNormOfText
      match processToolCalls c env st.pc norm with
      | .keyError calls _ => .exn st.history calls
      | .ok entries calls pc2 =>
        let allErrors := entries.all (fun e => pyStartsWith e.content ("Error:"))
        let hist1 :=
          if interceptedTC then
            st.history ++ [.assistantToolCalls (ext.1.map (fun r => (r.id, r.name, r.arguments)))]
          else st.history
        let hist2 := hist1 ++ entries.map entryMsg
        if !allErrors then
          .next { st with history := hist2, cycles := cycles1, k := st.k + 1,
                          pc := pc2, uc := uc1 } calls true
        else
          .ret toolFailMsg hist2 calls true
  else
    match decideForcedAction c st.history query finalContent st.attempted with
    | some f =>
      let tcid := uuidStr uc1
      let argsStr := jsonDumps f.arguments
      let hist1 := st.history ++ [.assistantToolCalls [(tcid, f.name, argsStr)]]
      match processToolCalls c env st.pc [⟨some tcid, some f.name, argsStr⟩] with
      | .keyError calls _ => .exn hist1 calls
      | .ok entries calls pc2 =>
        .next { st with history := hist1 ++ entries.map entryMsg, k := st.k + 1,
                        pc := pc2, uc := uc1 + 1 } calls false
    | none => .ret finalContent st.history [] false

/-- The result of running the loop: the returned answer (`none` when fuel ran
out or a `KeyError` was raised), the final conversation history, the trace of
provider invocations, the number of dispatched tool-call cycles, and whether
a `KeyError` escaped. -/
structure RunOut where
  answer : Option String
  history : List Msg
  calls : List PCall
  dc : Nat
  raised : Bool
deriving Repr

/-- The `while True` loop, fuelled (the source loop need not terminate: a
forced browser search can repeat without touching the cycle counter). -/
def runLoop (c : Client) (env : Env) (query : String) : Nat → LoopSt → RunOut
  | 0, st => ⟨none, st.history, [], 0, false⟩
  | fuel + 1, st =>
    match processCycle c env query st with
    | .ret a h calls d => ⟨some a, h, calls, if d then 1 else 0, false⟩
    | .exn h calls => ⟨none, h, calls, 0, true⟩
    | .next st2 calls d =>
      let r := runLoop c env query fuel st2
      ⟨r.answer, r.history, calls ++ r.calls, (if d then 1 else 0) + r.dc, r.raised⟩

/-- The history after the preamble of `process_query`: a system message when
the history is empty, then the user query. -/
def initialHistory (hist : List Msg) (query : String) : List Msg :=
  (if hist.isEmpty then hist ++ [.system systemPrompt] else hist) ++ [.user query]

/-- `process_query(query)` starting from conversation history `hist`. -/
def processQuery (c : Client) (env : Env) (query : String) (fuel : Nat)
    (hist : List Msg) : RunOut :=
  runLoop c env query fuel ⟨initialHistory hist query, 0, 0, 0, 0, false⟩

/-- One turn of `chat_loop` (lines 892-911): its effect on the conversation
history.  Only the `clear` command resets the history. -/
def chatStepHistory (c : Client) (env : Env) (fuel : Nat) (hist : List Msg)
    (input : String) : List Msg :=
  let query := pyStrip input
  if pyLower query == "exit" then hist
  else if pyLower query == "clear" then []
  else if query.isEmpty then hist
  else (processQuery c env query fuel hist).history

/-! ## Connection Manager

`connect_to_local_server` / `connect_to_sse_server` (lines 206-347) and
`load_servers_from_config` (lines 123-180).  Whether one connection attempt
succeeds (the `_do_connect` handshake, resp. the SSE probe/spawn/handshake
sequence) is supplied by an environment oracle indexed by server id and
attempt number; per-attempt resource release happens inside an attempt and
is invisible at this level. -/

/-- One `mcpServers` entry of the configuration file. -/
structure ServerDesc where
  id : String
  url : Option String := none
  command : Option String := none
  args : List String := []
  timeout : Option Nat := none
  max_retries : Option Nat := none
deriving Repr, DecidableEq

structure ConnEnv where
  localOk : String → Nat → Bool
  sseOk : String → Nat → Bool

/-- Observable outcome of one `connect_to_*_server` invocation: success flag,
number of connection attempts made, and the sequence of backoff sleeps
(`2 ** attempt` seconds between consecutive attempts). -/
structure ConnectTrace where
  success : Bool
  attempts : Nat
  sleeps : List Nat
deriving Repr, DecidableEq

/-- The `for attempt in range(max_retries)` retry loop shared by both connect
functions, by recursion on the remaining attempts (`rem + attempt` equals
`max_retries` throughout): on failure it sleeps `2 ** attempt` unless this
was the last attempt. -/
def connectLoopAux (ok : Nat → Bool) (maxRetries : Nat) : Nat → Nat → ConnectTrace
  | 0, _ => ⟨false, 0, []⟩
  | rem + 1, attempt =>
    if ok attempt then ⟨true, 1, []⟩
    else
      let sleeps := if attempt < maxRetries - 1 then [2 ^ attempt] else []
      let r := connectLoopAux ok maxRetries rem (attempt + 1)
      ⟨r.success, r.attempts + 1, sleeps ++ r.sleeps⟩

def connectLoop (ok : Nat → Bool) (maxRetries : Nat) : ConnectTrace :=
  connectLoopAux ok maxRetries maxRetries 0

/-- `connect_to_local_server`: early `True` when the server is already
connected; otherwise the retry loop, registering the session on success.
The initialize timeout only parameterizes the oracle's attempts. -/
def connectToLocalServer (env : ConnEnv) (defaultMaxRetries : Nat)
    (sessions : List String) (serverId : String) (maxRetries : Option Nat) :
    List String × ConnectTrace :=
  let mr := maxRetries.getD defaultMaxRetries
  if sessions.contains serverId then (sessions, ⟨true, 0, []⟩)
  else
    let r := connectLoop (env.localOk serverId) mr
    if r.success then (sessions ++ [serverId], r) else (sessions, r)

/-- `connect_to_sse_server`: same retry skeleton (the liveness probe and the
optional process spawn happen inside one attempt and are absorbed by the
oracle). -/
def connectToSseServer (env : ConnEnv) (defaultMaxRetries : Nat)
    (sessions : List String) (serverId : String) (maxRetries : Option Nat) :
    List String × ConnectTrace :=
  let mr := maxRetries.getD defaultMaxRetries
  if sessions.contains serverId then (sessions, ⟨true, 0, []⟩)
  else
    let r := connectLoop (env.sseOk serverId) mr
    if r.success then (sessions ++ [serverId], r) else (sessions, r)

/-- State threaded through `load_servers_from_config`: the session registry,
`successful_connections`, and the per-descriptor connect traces. -/
structure LoadSt where
  sessions : List String
  successes : Nat
  traces : List (String × ConnectTrace)
deriving Repr, DecidableEq

/-- One iteration of the descriptor loop of `load_servers_from_config`:
`url` present → SSE connect; otherwise `command` present → local connect;
neither → log and skip. -/
def loadStep (env : ConnEnv) (defaultMaxRetries : Nat) (st : LoadSt)
    (d : ServerDesc) : LoadSt :=
  match d.url with
  | some _ =>
    let r := connectToSseServer env defaultMaxRetries st.sessions d.id d.max_retries
    ⟨r.1, st.successes + (if r.2.success then 1 else 0), st.traces ++ [(d.id, r.2)]⟩
  | none =>
    match d.command with
    | none => st
    | some _ =>
      let r := connectToLocalServer env defaultMaxRetries st.sessions d.id d.max_retries
      ⟨r.1, st.successes + (if r.2.success then 1 else 0), st.traces ++ [(d.id, r.2)]⟩

/-- `load_servers_from_config`, over the already-decoded descriptor list. -/
def loadServersFromConfig (env : ConnEnv) (defaultMaxRetries : Nat)
    (descs : List ServerDesc) : LoadSt :=
  descs.foldl (loadStep env defaultMaxRetries) ⟨[], 0, []⟩

/-! ## Specification predicates used by the theorem statements -/

/-- Invariant of the merge fold at one index: after processing the delta
sequence `ds`, the accumulator holds no record for an index absent from `ds`,
and exactly one record for each present index, carrying the concatenation of
its argument chunks and of its name chunks. -/
def InvAt (ds acc : List ToolCallDelta) (i : Int) : Prop :=
  (ds.filter (fun x => x.index == i) = [] → recsAt acc i = []) ∧
  (ds.filter (fun x => x.index == i) ≠ [] →
    ∃ r, recsAt acc i = [r] ∧ r.arguments = argsConcatAt ds i ∧
      r.name.getD "" = nameConcatAt ds i)

def Inv (ds acc : List ToolCallDelta) : Prop :=
  ∀ i, InvAt ds acc i

/-- Does the cycle starting from `st` contain tool calls (structured, or
recovered by the textual extractor)?  Mirrors the `has_tool_calls` flag of
`process_query` at the dispatch decision point. -/
def cycleHasToolCalls (env : Env) (st : LoopSt) : Bool :=
  let frags := env.stream st.k
  (frags.any (fun f => !f.toolCalls.isEmpty)) ||
    !(extractTextToolCalls (aggregate frags).1 st.uc).1.isEmpty

/-- The normalized tool calls the cycle starting from `st` dispatches. -/
def cycleNorm (env : Env) (st : LoopSt) : List NormCall :=
  let frags := env.stream st.k
  if frags.any (fun f => !f.toolCalls.isEmpty) then
    (aggregate frags).2.map toNormOfDelta
  else
    (extractTextToolCalls (aggregate frags).1 st.uc).1.map toNormOfText

/-- The fresh-id counter after the cycle's extraction step. -/
def cycleUcAfter (env : Env) (st : LoopSt) : Nat :=
  let frags := env.stream st.k
  if frags.any (fun f => !f.toolCalls.isEmpty) then st.uc
  else (extractTextToolCalls (aggregate frags).1 st.uc).2

/-- The assistant message recorded before the tool results when the cycle's
calls were intercepted from plain text (empty in the structured case). -/
def cycleAssist (env : Env) (st : LoopSt) : List Msg :=
  let frags := env.stream st.k
  if frags.any (fun f => !f.toolCalls.isEmpty) then []
  else
    let ext := extractTextToolCalls (aggregate frags).1 st.uc
    if ext.1.isEmpty then []
    else [.assistantToolCalls (ext.1.map (fun r => (r.id, r.name, r.arguments)))]

/-! # Theorems -/

/-! ## String concatenation groundwork -/

theorem strConcat_append (l1 l2 : List String) :
    strConcat (l1 ++ l2) = strConcat l1 ++ strConcat l2 := by
  induction l1 with
  | nil => simp [strConcat, String.empty_append]
  | cons s rest ih => simp [strConcat, ih, String.append_assoc]

theorem strConcat_snoc (l : List String) (a : String) :
    strConcat (l ++ [a]) = strConcat l ++ a := by
  rw [strConcat_append]
  simp [strConcat, String.append_empty]

/-! ## The merge fold of the Response Aggregator (claim C3 groundwork) -/

theorem mergeTC_index (x d : ToolCallDelta) : (mergeTC x d).index = x.index := by
  unfold mergeTC
  split <;> rfl

theorem mergeTC_arguments (x d : ToolCallDelta) :
    (mergeTC x d).arguments = x.arguments ++ d.arguments := by
  unfold mergeTC
  split <;> rfl

theorem mergeTC_name (x d : ToolCallDelta) :
    (mergeTC x d).name.getD "" = (x.name.getD "") ++ (d.name.getD "") := by
  unfold mergeTC
  by_cases h : pyTruthyOptStr d.name = true
  · simp [h]
  · have hd : d.name.getD "" = "" := by
      match hn : d.name with
      | none => rfl
      | some s =>
        rw [hn] at h
        simp [pyTruthyOptStr] at h
        exact (String.isEmpty_iff s).mp h
    simp [h, hd, String.append_empty]

/-- Updating the record at index `j` leaves the filter at any other index
unchanged. -/
theorem filter_updFirst_ne (d : ToolCallDelta) (i j : Int) (hne : i ≠ j) :
    ∀ l : List ToolCallDelta,
      (updFirst (fun x => x.index == j) (fun x => mergeTC x d) l).filter
          (fun x => x.index == i)
        = l.filter (fun x => x.index == i) := by
  intro l
  induction l with
  | nil => rfl
  | cons x xs ih =>
    by_cases hx : (x.index == j) = true
    · have hxi : (x.index == i) = false := by
        by_contra hcon
        rw [Bool.not_eq_false] at hcon
        exact hne ((beq_iff_eq.mp hcon).symm.trans (beq_iff_eq.mp hx))
      have hmi : ((mergeTC x d).index == i) = false := by
        rw [mergeTC_index]; exact hxi
      simp [updFirst, hx, List.filter_cons, hmi, hxi]
    · simp [updFirst, hx, List.filter_cons, ih]

/-- If the accumulator holds exactly one record at index `j`, updating at `j`
replaces it by the merged record. -/
theorem filter_updFirst_self (d : ToolCallDelta) (j : Int) :
    ∀ (l : List ToolCallDelta) (r : ToolCallDelta),
      l.filter (fun x => x.index == j) = [r] →
      (updFirst (fun x => x.index == j) (fun x => mergeTC x d) l).filter
          (fun x => x.index == j)
        = [mergeTC r d] := by
  intro l
  induction l with
  | nil => intro r h; simp at h
  | cons x xs ih =>
    intro r h
    by_cases hx : (x.index == j) = true
    · rw [List.filter_cons] at h
      simp only [hx, if_true] at h
      injection h with h1 h2
      subst h1
      have hmj : ((mergeTC x d).index == j) = true := by
        rw [mergeTC_index]; exact hx
      simp [updFirst, hx, List.filter_cons, hmj, h2]
    · rw [List.filter_cons] at h
      simp only [hx, if_false] at h
      simp [updFirst, hx, List.filter_cons, ih r h]

/-- Records found by the filter are present with a positive `any`. -/
theorem any_of_filter_eq_cons (l : List ToolCallDelta) (j : Int) (r : ToolCallDelta)
    (h : l.filter (fun x => x.index == j) = [r]) :
    l.any (fun x => x.index == j) = true := by
  have hr : r ∈ l.filter (fun x => x.index == j) := by rw [h]; exact List.mem_singleton_self r
  rcases List.mem_filter.mp hr with ⟨hmem, hp⟩
  exact List.any_eq_true.mpr ⟨r, hmem, hp⟩

theorem any_eq_false_of_filter_eq_nil (l : List ToolCallDelta) (j : Int)
    (h : l.filter (fun x => x.index == j) = []) :
    l.any (fun x => x.index == j) = false := by
  rw [List.any_eq_false]
  intro x hx
  exact (List.filter_eq_nil_iff.mp h) x hx

/-- The merge step preserves the fold invariant. -/
theorem inv_step (ds acc : List ToolCallDelta) (d : ToolCallDelta) (h : Inv ds acc) :
    Inv (ds ++ [d]) (mergeOne acc d) := by
  intro i
  have hfa : (ds ++ [d]).filter (fun x => x.index == i)
      = ds.filter (fun x => x.index == i) ++ (if (d.index == i) = true then [d] else []) := by
    rw [List.filter_append]
    congr 1
    by_cases hd : (d.index == i) = true <;> simp [List.filter_cons, hd]
  have hargs : argsConcatAt (ds ++ [d]) i
      = argsConcatAt ds i ++ (if (d.index == i) = true then d.arguments else "") := by
    unfold argsConcatAt
    rw [hfa]
    by_cases hd : (d.index == i) = true
    · simp only [hd, if_true]
      rw [List.map_append, List.map_cons, List.map_nil, strConcat_snoc]
    · simp only [hd, if_false]
      simp [String.append_empty]
  have hnames : nameConcatAt (ds ++ [d]) i
      = nameConcatAt ds i ++ (if (d.index == i) = true then d.name.getD "" else "") := by
    unfold nameConcatAt
    rw [hfa]
    by_cases hd : (d.index == i) = true
    · simp only [hd, if_true]
      rw [List.map_append, List.map_cons, List.map_nil, strConcat_snoc]
    · simp only [hd, if_false]
      simp [String.append_empty]
  by_cases hd : (d.index == i) = true
  · -- the incoming delta concerns index i
    have hdi : d.index = i := beq_iff_eq.mp hd
    constructor
    · intro hnil
      rw [hfa] at hnil
      simp [hd] at hnil
    · intro _
      rcases h i with ⟨hempty, hfull⟩
      by_cases hds : ds.filter (fun x => x.index == i) = []
      · -- first delta at this index: mergeOne appends it
        have hacc : recsAt acc i = [] := hempty hds
        have hany : acc.any (fun x => x.index == d.index) = false := by
          rw [hdi]
          exact any_eq_false_of_filter_eq_nil acc i hacc
        refine ⟨d, ?_, ?_, ?_⟩
        · unfold mergeOne
          rw [hany]
          simp only [Bool.false_eq_true, if_false]
          unfold recsAt at hacc ⊢
          rw [List.filter_append, hacc]
          simp [List.filter_cons, hd]
        · rw [hargs, hd, if_pos rfl]
          unfold argsConcatAt
          rw [hds]
          simp [strConcat, String.empty_append]
        · rw [hnames, hd, if_pos rfl]
          unfold nameConcatAt
          rw [hds]
          simp [strConcat, String.empty_append]
      · -- an existing record at this index is updated in place
        rcases hfull hds with ⟨r, hr, hrargs, hrname⟩
        have hany : acc.any (fun x => x.index == d.index) = true := by
          rw [hdi]
          exact any_of_filter_eq_cons acc i r hr
        refine ⟨mergeTC r d, ?_, ?_, ?_⟩
        · unfold mergeOne
          rw [hany]
          simp only [if_true]
          unfold recsAt at hr ⊢
          rw [hdi]
          exact filter_updFirst_self d i acc r hr
        · rw [hargs, hd, if_pos rfl, mergeTC_arguments, hrargs]
        · rw [hnames, hd, if_pos rfl, mergeTC_name, hrname]
  · -- the incoming delta concerns another index: nothing changes at i
    have hne : i ≠ d.index := fun hcon => by
      rw [hcon] at hd
      simp at hd
    have hrecs : recsAt (mergeOne acc d) i = recsAt acc i := by
      unfold mergeOne recsAt
      by_cases hany : acc.any (fun x => x.index == d.index) = true
      · rw [hany]
        simp only [if_true]
        exact filter_updFirst_ne d i d.index hne acc
      · rw [Bool.not_eq_true] at hany
        rw [hany]
        simp only [Bool.false_eq_true, if_false]
        rw [List.filter_append]
        simp [List.filter_cons, hd]
    have hfilter : (ds ++ [d]).filter (fun x => x.index == i)
        = ds.filter (fun x => x.index == i) := by
      rw [hfa]
      simp [hd]
    rcases h i with ⟨hempty, hfull⟩
    constructor
    · intro hnil
      rw [hfilter] at hnil
      rw [hrecs]
      exact hempty hnil
    · intro hnn
      rw [hfilter] at hnn
      rcases hfull hnn with ⟨r, hr, hrargs, hrname⟩
      refine ⟨r, ?_, ?_, ?_⟩
      · rw [hrecs]; exact hr
      · have hdf : (d.index == i) = false := Bool.eq_false_iff.mpr hd
        rw [hargs, hdf]
        simp [String.append_empty, hrargs]
      · have hdf : (d.index == i) = false := Bool.eq_false_iff.mpr hd
        rw [hnames, hdf]
        simp [String.append_empty, hrname]

theorem inv_nil : Inv [] [] := by
  intro i
  constructor
  · intro _; rfl
  · intro h; simp [List.filter] at h

theorem inv_fold : ∀ (ds hs acc : List ToolCallDelta), Inv hs acc →
    Inv (hs ++ ds) (ds.foldl mergeOne acc) := by
  intro ds
  induction ds with
  | nil => intro hs acc h; simpa using h
  | cons d rest ih =>
    intro hs acc h
    have h2 := ih (hs ++ [d]) (mergeOne acc d) (inv_step hs acc d h)
    simpa [List.append_assoc] using h2

theorem inv_all (ds : List ToolCallDelta) : Inv ds (ds.foldl mergeOne []) := by
  have h := inv_fold ds [] [] inv_nil
  simpa using h

/-- The tool-call component of the fragment fold equals the plain merge fold
over the concatenated delta sequence. -/
theorem aggregate_snd (frags : List StreamDelta) :
    (aggregate frags).2 = (allDeltas frags).foldl mergeOne [] := by
  suffices h : ∀ (fs : List StreamDelta) (s : String) (acc : List ToolCallDelta),
      (fs.foldl aggregateStep (s, acc)).2
        = ((fs.map (fun f => f.toolCalls)).flatten).foldl mergeOne acc by
    exact h frags "" []
  intro fs
  induction fs with
  | nil => intro s acc; rfl
  | cons f rest ih =>
    intro s acc
    rw [List.foldl_cons, List.map_cons, List.flatten_cons, List.foldl_append]
    exact ih _ _

/-- Claim C3: for every finite fragment stream and every tool-call index
occurring in it, the fragment fold of `process_query` produces exactly one
merged record at that index, whose argument string is the concatenation, in
arrival order, of that index's argument chunks, and whose name is the
concatenation of its name chunks. -/
theorem aggregate_merges_per_index (frags : List StreamDelta) (i : Int)
    (h : (allDeltas frags).any (fun d => d.index == i) = true) :
    ∃ r : ToolCallDelta,
      recsAt (aggregate frags).2 i = [r] ∧
      r.arguments = argsConcatAt (allDeltas frags) i ∧
      r.name.getD "" = nameConcatAt (allDeltas frags) i := by
  rw [aggregate_snd]
  have hinv := inv_all (allDeltas frags) i
  rcases hinv with ⟨_, hfull⟩
  apply hfull
  intro hnil
  rcases List.any_eq_true.mp h with ⟨d, hmem, hp⟩
  exact (List.filter_eq_nil_iff.mp hnil) d hmem hp

/-- Witness for C3: a stream whose tool-call deltas for index 0 are split
across three fragments, interleaved with text and with a second index. -/
theorem aggregate_merges_per_index_witness :
    ((allDeltas [⟨none, some "Let me ", []⟩,
        ⟨none, none, [⟨0, some "c1", some "get_", "\x7b\"ci"⟩]⟩,
        ⟨none, some "look. ", [⟨0, none, some "weather", "ty\": "⟩, ⟨1, some "c2", some "noop", ""⟩]⟩,
        ⟨none, none, [⟨0, none, none, "\"qujing\"\x7d"⟩]⟩]).any (fun d => d.index == 0) = true) ∧
    (∃ r : ToolCallDelta,
      recsAt (aggregate [⟨none, some "Let me ", []⟩,
        ⟨none, none, [⟨0, some "c1", some "get_", "\x7b\"ci"⟩]⟩,
        ⟨none, some "look. ", [⟨0, none, some "weather", "ty\": "⟩, ⟨1, some "c2", some "noop", ""⟩]⟩,
        ⟨none, none, [⟨0, none, none, "\"qujing\"\x7d"⟩]⟩]).2 0 = [r] ∧
      r.arguments = argsConcatAt (allDeltas [⟨none, some "Let me ", []⟩,
        ⟨none, none, [⟨0, some "c1", some "get_", "\x7b\"ci"⟩]⟩,
        ⟨none, some "look. ", [⟨0, none, some "weather", "ty\": "⟩, ⟨1, some "c2", some "noop", ""⟩]⟩,
        ⟨none, none, [⟨0, none, none, "\"qujing\"\x7d"⟩]⟩]) 0 ∧
      r.name.getD "" = nameConcatAt (allDeltas [⟨none, some "Let me ", []⟩,
        ⟨none, none, [⟨0, some "c1", some "get_", "\x7b\"ci"⟩]⟩,
        ⟨none, some "look. ", [⟨0, none, some "weather", "ty\": "⟩, ⟨1, some "c2", some "noop", ""⟩]⟩,
        ⟨none, none, [⟨0, none, none, "\"qujing\"\x7d"⟩]⟩]) 0) :=
  ⟨by decide, aggregate_merges_per_index _ 0 (by decide)⟩

/-! ## Agent Loop characterization lemmas -/

/-- When the cycle contains tool calls and the incremented counter exceeds
the cap of 10, the loop returns the infinite-loop diagnostic at once, with
the history untouched and no dispatch. -/
theorem processCycle_capped (c : Client) (env : Env) (q : String) (st : LoopSt)
    (h1 : cycleHasToolCalls env st = true) (h2 : st.cycles + 1 > 10) :
    processCycle c env q st = .ret loopDiagMsg st.history [] false := by
  unfold processCycle
  unfold cycleHasToolCalls at h1
  by_cases hs : ((env.stream st.k).any fun f => !f.toolCalls.isEmpty) = true
  · simp only [hs, if_pos, if_true, Bool.true_or, if_pos h2]
  · have hsf : ((env.stream st.k).any fun f => !f.toolCalls.isEmpty) = false :=
      Bool.eq_false_iff.mpr hs
    simp only [hsf] at h1 ⊢
    simp only [Bool.false_or] at h1
    simp [h1, h2]

/-- Successful dispatch of a tool-call cycle below the cap: the counter
increments, the entries are appended to the history (after the intercepted
assistant record when applicable), and an all-`Error:` cycle returns the
generic failure message instead of continuing. -/
theorem processCycle_dispatch_eq (c : Client) (env : Env) (q : String) (st : LoopSt)
    (entries : List ToolResultEntry) (calls : List PCall) (pc2 : Nat)
    (h1 : cycleHasToolCalls env st = true) (h2 : st.cycles + 1 ≤ 10)
    (hp : processToolCalls c env st.pc (cycleNorm env st) = .ok entries calls pc2) :
    processCycle c env q st =
      (if entries.all (fun e => pyStartsWith e.content ("Error:")) then
        CycleOut.ret toolFailMsg (st.history ++ cycleAssist env st ++ entries.map entryMsg)
          calls true
      else
        CycleOut.next ⟨st.history ++ cycleAssist env st ++ entries.map entryMsg,
               st.cycles + 1, st.k + 1, pc2, cycleUcAfter env st, st.attempted⟩ calls true) := by
  unfold processCycle
  unfold cycleHasToolCalls at h1
  unfold cycleNorm at hp
  unfold cycleAssist cycleUcAfter
  have hcap : ¬(st.cycles + 1 > 10) := by omega
  by_cases hs : ((env.stream st.k).any fun f => !f.toolCalls.isEmpty) = true
  · simp only [hs, if_true] at hp ⊢
    simp only [hp, hcap]
    by_cases herr : (entries.all fun e => pyStartsWith e.content ("Error:")) = true
    · simp [herr, hcap]
    · have herrf := Bool.eq_false_iff.mpr herr
      simp [herrf, hcap]
  · have hsf := Bool.eq_false_iff.mpr hs
    simp only [hsf, Bool.false_or] at h1
    have hne : (extractTextToolCalls (aggregate (env.stream st.k)).1 st.uc).1 ≠ [] := by
      intro hnil
      rw [hnil] at h1
      simp at h1
    simp only [hsf] at hp ⊢
    simp only [Bool.false_eq_true, if_false] at hp
    by_cases herr : (entries.all fun e => pyStartsWith e.content ("Error:")) = true
    · simp [herr, hcap, hne, hp]
    · have herrf := Bool.eq_false_iff.mpr herr
      simp [herrf, hcap, hne, hp]

/-- A `KeyError` inside the dispatch loop aborts the cycle with the history
untouched (the pending entries are lost). -/
theorem processCycle_dispatch_keyError (c : Client) (env : Env) (q : String) (st : LoopSt)
    (calls : List PCall) (pcE : Nat)
    (h1 : cycleHasToolCalls env st = true) (h2 : st.cycles + 1 ≤ 10)
    (hp : processToolCalls c env st.pc (cycleNorm env st) = .keyError calls pcE) :
    processCycle c env q st = .exn st.history calls := by
  unfold processCycle
  unfold cycleHasToolCalls at h1
  unfold cycleNorm at hp
  have hcap : ¬(st.cycles + 1 > 10) := by omega
  by_cases hs : ((env.stream st.k).any fun f => !f.toolCalls.isEmpty) = true
  · simp only [hs, if_true] at hp ⊢
    simp [hp, hcap]
  · have hsf := Bool.eq_false_iff.mpr hs
    simp only [hsf, Bool.false_or] at h1
    have hne : (extractTextToolCalls (aggregate (env.stream st.k)).1 st.uc).1 ≠ [] := by
      intro hnil
      rw [hnil] at h1
      simp at h1
    simp only [hsf] at hp ⊢
    simp only [Bool.false_eq_true, if_false] at hp
    simp [hcap, hne, hp]

/-- A cycle with no tool calls and a forced action dispatches the synthesized
call without touching the cycle counter. -/
theorem processCycle_forced_eq (c : Client) (env : Env) (q : String) (st : LoopSt)
    (f : ForcedTool) (entries : List ToolResultEntry) (calls : List PCall) (pc2 : Nat)
    (h1 : cycleHasToolCalls env st = false)
    (hf : decideForcedAction c st.history q (aggregate (env.stream st.k)).1 st.attempted = some f)
    (hp : processToolCalls c env st.pc
        [⟨some (uuidStr (cycleUcAfter env st)), some f.name, jsonDumps f.arguments⟩]
      = .ok entries calls pc2) :
    processCycle c env q st =
      .next ⟨st.history
               ++ [.assistantToolCalls [(uuidStr (cycleUcAfter env st), f.name, jsonDumps f.arguments)]]
               ++ entries.map entryMsg,
             st.cycles, st.k + 1, pc2, cycleUcAfter env st + 1, st.attempted⟩ calls false := by
  unfold processCycle
  unfold cycleHasToolCalls at h1
  unfold cycleUcAfter at hp ⊢
  rcases Bool.or_eq_false_iff.mp h1 with ⟨hsf, hef⟩
  have he : (extractTextToolCalls (aggregate (env.stream st.k)).1 st.uc).1 = [] := by
    exact List.isEmpty_iff.mp (by simpa using hef)
  simp only [hsf] at hp ⊢
  simp only [Bool.false_eq_true, if_false] at hp
  simp [he, hf, hp]

/-- A `KeyError` while dispatching a forced action: the assistant record was
already appended, the entries are lost. -/
theorem processCycle_forced_keyError (c : Client) (env : Env) (q : String) (st : LoopSt)
    (f : ForcedTool) (calls : List PCall) (pcE : Nat)
    (h1 : cycleHasToolCalls env st = false)
    (hf : decideForcedAction c st.history q (aggregate (env.stream st.k)).1 st.attempted = some f)
    (hp : processToolCalls c env st.pc
        [⟨some (uuidStr (cycleUcAfter env st)), some f.name, jsonDumps f.arguments⟩]
      = .keyError calls pcE) :
    processCycle c env q st =
      .exn (st.history
        ++ [.assistantToolCalls [(uuidStr (cycleUcAfter env st), f.name, jsonDumps f.arguments)]])
        calls := by
  unfold processCycle
  unfold cycleHasToolCalls at h1
  unfold cycleUcAfter at hp ⊢
  rcases Bool.or_eq_false_iff.mp h1 with ⟨hsf, hef⟩
  have he : (extractTextToolCalls (aggregate (env.stream st.k)).1 st.uc).1 = [] := by
    exact List.isEmpty_iff.mp (by simpa using hef)
  simp only [hsf] at hp ⊢
  simp only [Bool.false_eq_true, if_false] at hp
  simp [he, hf, hp]

/-- A cycle with no tool calls and no forced action returns the accumulated
text, leaving the history untouched. -/
theorem processCycle_final_eq (c : Client) (env : Env) (q : String) (st : LoopSt)
    (h1 : cycleHasToolCalls env st = false)
    (hf : decideForcedAction c st.history q (aggregate (env.stream st.k)).1 st.attempted = none) :
    processCycle c env q st = .ret (aggregate (env.stream st.k)).1 st.history [] false := by
  unfold processCycle
  unfold cycleHasToolCalls at h1
  rcases Bool.or_eq_false_iff.mp h1 with ⟨hsf, hef⟩
  have he : (extractTextToolCalls (aggregate (env.stream st.k)).1 st.uc).1 = [] := by
    exact List.isEmpty_iff.mp (by simpa using hef)
  simp only [hsf]
  simp [he, hf]

/-- Per-cycle invariants: the history only grows, the dispatched flag agrees
with the presence of tool calls, and the cycle counter increments exactly on
dispatched cycles (which only happen below the cap). -/
theorem processCycle_spec (c : Client) (env : Env) (q : String) (st : LoopSt) :
    match processCycle c env q st with
    | .ret _ hh _ d => st.history <+: hh ∧ (d = true → st.cycles + 1 ≤ 10)
    | .next st2 _ d =>
        st.history <+: st2.history ∧ d = cycleHasToolCalls env st ∧
        (d = true → st2.cycles = st.cycles + 1 ∧ st.cycles + 1 ≤ 10) ∧
        (d = false → st2.cycles = st.cycles)
    | .exn hh _ => st.history <+: hh := by
  by_cases h1 : cycleHasToolCalls env st = true
  · by_cases h2 : st.cycles + 1 ≤ 10
    · cases hp : processToolCalls c env st.pc (cycleNorm env st) with
      | ok entries calls pc2 =>
        rw [processCycle_dispatch_eq c env q st entries calls pc2 h1 h2 hp]
        by_cases herr : (entries.all fun e => pyStartsWith e.content ("Error:")) = true
        · rw [if_pos herr]
          refine ⟨?_, fun _ => h2⟩
          rw [List.append_assoc]
          exact List.prefix_append _ _
        · rw [if_neg herr]
          refine ⟨?_, h1.symm, fun _ => ⟨rfl, h2⟩, fun hd => Bool.noConfusion hd⟩
          rw [List.append_assoc]
          exact List.prefix_append _ _
      | keyError calls pcE =>
        rw [processCycle_dispatch_keyError c env q st calls pcE h1 h2 hp]
    · rw [processCycle_capped c env q st h1 (by omega)]
      exact ⟨List.prefix_refl _, fun hd => Bool.noConfusion hd⟩
  · have h1f : cycleHasToolCalls env st = false := Bool.eq_false_iff.mpr h1
    cases hf : decideForcedAction c st.history q (aggregate (env.stream st.k)).1 st.attempted with
    | none =>
      rw [processCycle_final_eq c env q st h1f hf]
      exact ⟨List.prefix_refl _, fun hd => Bool.noConfusion hd⟩
    | some f =>
      cases hp : processToolCalls c env st.pc
          [⟨some (uuidStr (cycleUcAfter env st)), some f.name, jsonDumps f.arguments⟩] with
      | ok entries calls pc2 =>
        rw [processCycle_forced_eq c env q st f entries calls pc2 h1f hf hp]
        refine ⟨?_, h1f.symm, fun hd => Bool.noConfusion hd, fun _ => rfl⟩
        rw [List.append_assoc]
        exact List.prefix_append _ _
      | keyError calls pcE =>
        rw [processCycle_forced_keyError c env q st f calls pcE h1f hf hp]
        exact List.prefix_append _ _

/-- The loop only appends to the history. -/
theorem runLoop_extends (c : Client) (env : Env) (q : String) :
    ∀ (fuel : Nat) (st : LoopSt), st.history <+: (runLoop c env q fuel st).history := by
  intro fuel
  induction fuel with
  | zero => intro st; exact List.prefix_refl _
  | succ n ih =>
    intro st
    have hs := processCycle_spec c env q st
    unfold runLoop
    cases hc : processCycle c env q st with
    | ret a hh calls d =>
      rw [hc] at hs
      exact hs.1
    | exn hh calls =>
      rw [hc] at hs
      exact hs
    | next st2 calls d =>
      rw [hc] at hs
      exact List.IsPrefix.trans hs.1 (ih st2)

/-- The number of dispatched tool-call cycles is bounded by what remains of
the cap. -/
theorem runLoop_dc_le (c : Client) (env : Env) (q : String) :
    ∀ (fuel : Nat) (st : LoopSt), (runLoop c env q fuel st).dc ≤ 10 - st.cycles := by
  intro fuel
  induction fuel with
  | zero => intro st; simp [runLoop]
  | succ n ih =>
    intro st
    have hs := processCycle_spec c env q st
    unfold runLoop
    cases hc : processCycle c env q st with
    | ret a hh calls d =>
      rw [hc] at hs
      cases d with
      | false => simp
      | true =>
        have h2 := hs.2 rfl
        simp
        omega
    | exn hh calls => simp
    | next st2 calls d =>
      rw [hc] at hs
      have hr := ih st2
      cases d with
      | false =>
        have hcy := hs.2.2.2 rfl
        rw [hcy] at hr
        simp
        omega
      | true =>
        have hcy := hs.2.2.1 rfl
        rw [hcy.1] at hr
        simp
        omega

/-! ## Claim C1 — control_pump confirmation gate -/

/-- C1: for every dispatched tool call named `control_pump` (valid JSON
arguments, tool resolved in the catalog, owning session registered), if the
user's confirmation reply, stripped and lower-cased, is neither `y` nor
`yes`, then exactly one tool-result entry stating the denial is produced for
that record, the session's `call_tool` is never invoked (empty invocation
trace), and exactly one confirmation prompt was consumed. -/
theorem control_pump_denied_no_call (c : Client) (env : Env) (pc : Nat)
    (tc : NormCall) (a : JValue) (info : ToolInfo)
    (hargs : jsonLoads tc.arguments = some a)
    (hname : tc.name = some "control_pump")
    (hcat : (c.toolsMap.find? (fun p => p.1 == "control_pump")).map (fun p => p.2) = some info)
    (hsess : c.sessions.contains info.server_id = true)
    (hreply : (["y", "yes"].contains (pyLower (pyStrip (env.confirm pc)))) = false) :
    dispatchOne c env pc tc =
      .ok [⟨deniedContent "control_pump", tc.id⟩] [] (pc + 1) := by
  unfold dispatchOne
  simp only [hargs, hname, hcat, hsess, hreply]
  simp

/-- Witness for C1 at a concrete state: reply `" NO "` denies the call. -/
theorem control_pump_denied_no_call_witness :
    dispatchOne
      { toolsMap := [("control_pump", ⟨"irrigation", "", JValue.jsObj []⟩)],
        sessions := ["irrigation"], toolTimeout := 120 }
      { stream := fun _ => [], confirm := fun _ => " NO ",
        call := fun _ _ _ => .ok "pump on", browserWait := id }
      0 ⟨some "id1", some "control_pump", "\x7b\x7d"⟩
      = .ok [⟨deniedContent "control_pump", some "id1"⟩] [] 1 :=
  control_pump_denied_no_call _ _ 0 _ (JValue.jsObj []) ⟨"irrigation", "", JValue.jsObj []⟩
    (by rfl) (by rfl) (by rfl) (by rfl) (by decide)

/-! ## Claim C7 — unknown tool name -/

/-- C7: dispatching a record with valid JSON arguments whose tool name is
absent from the catalog yields exactly one tool-result entry whose content
begins with the error marker `错误：`, and no session's `call_tool` is
invoked. -/
theorem unknown_tool_single_error_no_call (c : Client) (env : Env) (pc : Nat)
    (tc : NormCall) (n : String) (a : JValue)
    (hargs : jsonLoads tc.arguments = some a)
    (hname : tc.name = some n)
    (hcat : c.toolsMap.find? (fun p => p.1 == n) = none) :
    dispatchOne c env pc tc = .ok [⟨unknownToolContent n, tc.id⟩] [] pc ∧
      (∃ rest, unknownToolContent n = "错误：" ++ rest) := by
  constructor
  · unfold dispatchOne
    simp only [hargs, hname, hcat, Option.map_none']
  · refine ⟨("未找到工具 " ++ n) ++ " 的配置信息。", ?_⟩
    unfold unknownToolContent
    rw [← String.append_assoc, ← String.append_assoc]
    rfl

/-- Witness for C7 at a concrete state. -/
theorem unknown_tool_single_error_no_call_witness :
    dispatchOne
      { toolsMap := [("get_weather", ⟨"weather", "", JValue.jsObj []⟩)],
        sessions := ["weather"], toolTimeout := 120 }
      { stream := fun _ => [], confirm := fun _ => "",
        call := fun _ _ _ => .ok "", browserWait := id }
      0 ⟨some "id1", some "nosuch", "\x7b\x7d"⟩
      = .ok [⟨unknownToolContent "nosuch", some "id1"⟩] [] 0 ∧
      (∃ rest, unknownToolContent "nosuch" = "错误：" ++ rest) :=
  unknown_tool_single_error_no_call _ _ 0 _ "nosuch" (JValue.jsObj [])
    (by rfl) (by rfl) (by rfl)

/-! ## Claim C10 — the gate is keyed solely on the literal name -/

/-- C10: for every dispatched record whose tool name is any resolvable name
other than `control_pump`, the provider is invoked (the invocation appears in
the trace) and no confirmation prompt is consumed (the prompt index is
unchanged): the high-risk gate is keyed solely on the literal string
`control_pump`. -/
theorem gate_keyed_on_name_only (c : Client) (env : Env) (pc : Nat)
    (tc : NormCall) (n : String) (a : JValue) (info : ToolInfo)
    (hargs : jsonLoads tc.arguments = some a)
    (hname : tc.name = some n)
    (hn : (n == "control_pump") = false)
    (hcat : (c.toolsMap.find? (fun p => p.1 == n)).map (fun p => p.2) = some info)
    (hsess : c.sessions.contains info.server_id = true) :
    ∃ e : ToolResultEntry,
      dispatchOne c env pc tc = .ok [e] [(info.server_id, n, a)] pc := by
  unfold dispatchOne
  simp only [hargs, hname, hcat, hsess, hn]
  cases hcall : env.call info.server_id n a with
  | ok text =>
    by_cases hb : (n == "browser_use") = true
    · exact ⟨⟨env.browserWait text, tc.id⟩, by simp [hcall, hb]⟩
    · exact ⟨⟨text, tc.id⟩, by simp [hcall, Bool.eq_false_iff.mpr hb]⟩
  | timeout => exact ⟨⟨timeoutContent n c.toolTimeout, tc.id⟩, by simp [hcall]⟩
  | exn m => exact ⟨⟨exnContent n m, tc.id⟩, by simp [hcall]⟩

/-- Witness for C10: a `control_valve` call is dispatched with no prompt. -/
theorem gate_keyed_on_name_only_witness :
    ∃ e : ToolResultEntry,
      dispatchOne
        { toolsMap := [("control_valve", ⟨"irrigation", "", JValue.jsObj []⟩)],
          sessions := ["irrigation"], toolTimeout := 120 }
        { stream := fun _ => [], confirm := fun _ => "no",
          call := fun _ _ _ => .ok "valve on", browserWait := id }
        0 ⟨some "id1", some "control_valve", "\x7b\x7d"⟩
        = .ok [e] [("irrigation", "control_valve", JValue.jsObj [])] 0 :=
  gate_keyed_on_name_only _ _ 0 _ "control_valve" (JValue.jsObj [])
    ⟨"irrigation", "", JValue.jsObj []⟩ (by rfl) (by rfl) (by rfl) (by rfl) (by rfl)

/-! ## Claim C6 — session resolution (corrected)

The session lookup `self.sessions[server_id]["session"]` (line 586) happens
*before* the `try` block of `_process_tool_calls`: a tool whose owning
session is missing from the registry raises a `KeyError` that propagates out
of the dispatch loop, instead of producing a tool-result error entry.  A
*closed* session (whose `call_tool` raises at invocation time) does take the
error-entry path. -/

/-- Counterexample to C6 as stated: with tool `t` catalogued to server `s`
but `s` absent from the session registry, dispatching produces no tool-result
entry at all — the embedded `KeyError` outcome — so the unknown-tool error
path is not taken and the exception leaves the dispatch loop. -/
theorem missing_session_keyerror :
    dispatchOne
      { toolsMap := [("t", ⟨"s", "", JValue.jsObj []⟩)], sessions := [], toolTimeout := 120 }
      { stream := fun _ => [], confirm := fun _ => "",
        call := fun _ _ _ => .ok "fine", browserWait := id }
      0 ⟨some "id1", some "t", "\x7b\x7d"⟩ = .keyError [] 0 ∧
    processToolCalls
      { toolsMap := [("t", ⟨"s", "", JValue.jsObj []⟩)], sessions := [], toolTimeout := 120 }
      { stream := fun _ => [], confirm := fun _ => "",
        call := fun _ _ _ => .ok "fine", browserWait := id }
      0 [⟨some "id1", some "t", "\x7b\x7d"⟩] = .keyError [] 0 := by
  constructor <;> rfl

/-- C6 amended: if the owning session is *missing* from the registry the
dispatcher raises (the `KeyError` outcome, no entry produced); if the session
is registered but *closed* — its `call_tool` raises — the dispatcher produces
exactly one tool-result error entry and no exception escapes. -/
theorem session_resolution_amended :
    (∀ (c : Client) (env : Env) (pc : Nat) (tc : NormCall) (n : String) (a : JValue)
        (info : ToolInfo),
      jsonLoads tc.arguments = some a → tc.name = some n →
      (c.toolsMap.find? (fun p => p.1 == n)).map (fun p => p.2) = some info →
      c.sessions.contains info.server_id = false →
      dispatchOne c env pc tc = .keyError [] pc) ∧
    (∀ (c : Client) (env : Env) (pc : Nat) (tc : NormCall) (n : String) (a : JValue)
        (info : ToolInfo) (m : String),
      jsonLoads tc.arguments = some a → tc.name = some n → (n == "control_pump") = false →
      (c.toolsMap.find? (fun p => p.1 == n)).map (fun p => p.2) = some info →
      c.sessions.contains info.server_id = true →
      env.call info.server_id n a = .exn m →
      dispatchOne c env pc tc = .ok [⟨exnContent n m, tc.id⟩] [(info.server_id, n, a)] pc) := by
  constructor
  · intro c env pc tc n a info hargs hname hcat hsess
    unfold dispatchOne
    simp only [hargs, hname, hcat, hsess]
    simp
  · intro c env pc tc n a info m hargs hname hn hcat hsess hcall
    unfold dispatchOne
    simp only [hargs, hname, hcat, hsess, hn, hcall]
    simp

/-- Witness for the amended C6, both conjuncts at concrete states. -/
theorem session_resolution_amended_witness :
    dispatchOne
      { toolsMap := [("t", ⟨"s", "", JValue.jsObj []⟩)], sessions := [], toolTimeout := 120 }
      { stream := fun _ => [], confirm := fun _ => "",
        call := fun _ _ _ => .ok "fine", browserWait := id }
      0 ⟨some "id2", some "t", "\x7b\x7d"⟩ = .keyError [] 0 ∧
    dispatchOne
      { toolsMap := [("t", ⟨"s", "", JValue.jsObj []⟩)], sessions := ["s"], toolTimeout := 120 }
      { stream := fun _ => [], confirm := fun _ => "",
        call := fun _ _ _ => .exn "connection closed", browserWait := id }
      0 ⟨some "id2", some "t", "\x7b\x7d"⟩
      = .ok [⟨exnContent "t" "connection closed", some "id2"⟩] [("s", "t", JValue.jsObj [])] 0 :=
  ⟨session_resolution_amended.1 _ _ 0 _ "t" (JValue.jsObj []) ⟨"s", "", JValue.jsObj []⟩
      (by rfl) (by rfl) (by rfl) (by rfl),
   session_resolution_amended.2 _ _ 0 _ "t" (JValue.jsObj []) ⟨"s", "", JValue.jsObj []⟩
      "connection closed" (by rfl) (by rfl) (by rfl) (by rfl) (by rfl) (by rfl)⟩

/-! ## Claim C4 — extractor on a fenced code block (corrected)

On the standard multi-line fenced form the same JSON object is matched twice:
once through the code-block recursion (strategy 1) and once by the line scan
(strategy 2) — the extractor deliberately does not de-duplicate across
strategies.  Both records carry name `x` and an argument string that parses
back to `{"a": 1}`, but there are two of them, not one. -/

/-- Counterexample to C4 as stated: the extractor applied to the single
fenced code block

```
```json
{"name":"x","arguments":{"a":1}}
```
```

returns two records, not exactly one. -/
theorem extract_fenced_two_records :
    (extractTextToolCalls
        "```json\n\x7b\"name\":\"x\",\"arguments\":\x7b\"a\":1\x7d\x7d\n```" 0).1.length
      = 2 := by
  decide

/-- C4 amended: on the multi-line fenced block the extractor returns exactly
two records (one via the code-block recursion, one via the line scan), each
with name `x` and an argument string that parses back to the object
`{"a": 1}`. -/
theorem extract_fenced_records_roundtrip :
    ((extractTextToolCalls
        "```json\n\x7b\"name\":\"x\",\"arguments\":\x7b\"a\":1\x7d\x7d\n```" 0).1.map
          (fun r => (r.name, r.arguments))
      = [("x", "\x7b\"a\": 1\x7d"), ("x", "\x7b\"a\": 1\x7d")]) ∧
    jsonLoads "\x7b\"a\": 1\x7d" = some (JValue.jsObj [("a", JValue.jsInt 1)]) := by
  constructor
  · decide
  · rfl

/-! ## Claim C5 — all-error cycle termination (corrected)

The early-exit test of `process_query` is `result["content"].startswith
("Error:")`.  The error entries of the invalid-JSON, timeout and
provider-exception paths carry that prefix, but the unknown-tool entry
(`错误：…`) and the user-denial entry do not: a cycle consisting solely of
such error entries does *not* terminate the loop. -/

/-- Counterexample to C5 as stated: cycle 1 dispatches a single unknown tool
call, so its only tool-result entry is the unknown-tool error entry; yet the
loop continues and returns the plain text of cycle 2 (`"done"`), not the
generic failure message. -/
theorem all_error_cycle_continues :
    (processQuery
        { toolsMap := [("t", ⟨"s", "", JValue.jsObj []⟩)], sessions := ["s"], toolTimeout := 120 }
        { stream := fun k =>
            if k == 0 then [⟨none, none, [⟨0, some "c1", some "nosuch", "\x7b\x7d"⟩]⟩]
            else [⟨none, some "done", []⟩]
          confirm := fun _ => ""
          call := fun _ _ _ => .exn "x"
          browserWait := id }
        "hello" 3 []).answer = some "done" ∧
    (processQuery
        { toolsMap := [("t", ⟨"s", "", JValue.jsObj []⟩)], sessions := ["s"], toolTimeout := 120 }
        { stream := fun k =>
            if k == 0 then [⟨none, none, [⟨0, some "c1", some "nosuch", "\x7b\x7d"⟩]⟩]
            else [⟨none, some "done", []⟩]
          confirm := fun _ => ""
          call := fun _ _ _ => .exn "x"
          browserWait := id }
        "hello" 3 []).history.drop 2
      = [Msg.toolResult (unknownToolContent "nosuch") (some "c1")] ∧
    some toolFailMsg ≠ some "done" := by
  refine ⟨by decide, by decide, by decide⟩

/-- C5 amended: a dispatch cycle *all of whose tool-result entries start with
the literal `Error:`* (the invalid-JSON, timeout and provider-exception
entries) terminates the loop at the end of that cycle with the generic
failure message — in particular within exactly one cycle when the tool
environment always errors; error entries of the unknown-tool path and
user-denial entries do not carry the prefix and do not trigger the early
exit. -/
theorem error_prefixed_cycle_terminates (c : Client) (env : Env) (q : String)
    (st : LoopSt) (entries : List ToolResultEntry) (calls : List PCall) (pc2 : Nat)
    (h1 : cycleHasToolCalls env st = true) (h2 : st.cycles + 1 ≤ 10)
    (hp : processToolCalls c env st.pc (cycleNorm env st) = .ok entries calls pc2)
    (herr : entries.all (fun e => pyStartsWith e.content ("Error:")) = true) :
    processCycle c env q st =
      .ret toolFailMsg (st.history ++ cycleAssist env st ++ entries.map entryMsg) calls true := by
  rw [processCycle_dispatch_eq c env q st entries calls pc2 h1 h2 hp, if_pos herr]

/-- Witness for the amended C5: one provider-exception cycle returns the
generic failure message immediately. -/
theorem error_prefixed_cycle_terminates_witness :
    processCycle
      { toolsMap := [("t", ⟨"s", "", JValue.jsObj []⟩)], sessions := ["s"], toolTimeout := 120 }
      { stream := fun _ => [⟨none, none, [⟨0, some "c1", some "t", "\x7b\x7d"⟩]⟩]
        confirm := fun _ => ""
        call := fun _ _ _ => .exn "x"
        browserWait := id }
      "hello" ⟨[Msg.user "hello"], 0, 0, 0, 0, false⟩ =
      .ret toolFailMsg [Msg.user "hello", Msg.toolResult (exnContent "t" "x") (some "c1")]
        [("s", "t", JValue.jsObj [])] true := by
  rw [error_prefixed_cycle_terminates _ _ "hello" ⟨[Msg.user "hello"], 0, 0, 0, 0, false⟩
    [⟨exnContent "t" "x", some "c1"⟩] [("s", "t", JValue.jsObj [])] 0
    (by decide) (by decide) (by rfl) (by decide)]
  rfl

/-! ## Claim C2 — the cycle cap -/

/-- C2: within one `process_query` run, a continuing cycle changes the cycle
counter by at most one and never decreases it; the counter increments exactly
on cycles that contain tool calls; once the incremented counter exceeds the
cap of 10 the loop returns the infinite-loop diagnostic at once, without
dispatching that cycle's calls (empty invocation trace); consequently each
run dispatches at most 10 tool-call cycles. -/
theorem cycle_cap_bounds :
    (∀ (c : Client) (env : Env) (q : String) (st st2 : LoopSt) (calls : List PCall) (d : Bool),
      processCycle c env q st = .next st2 calls d →
      st.cycles ≤ st2.cycles ∧ st2.cycles ≤ st.cycles + 1) ∧
    (∀ (c : Client) (env : Env) (q : String) (st st2 : LoopSt) (calls : List PCall) (d : Bool),
      processCycle c env q st = .next st2 calls d →
      (cycleHasToolCalls env st = true → st2.cycles = st.cycles + 1) ∧
      (cycleHasToolCalls env st = false → st2.cycles = st.cycles)) ∧
    (∀ (c : Client) (env : Env) (q : String) (st : LoopSt),
      cycleHasToolCalls env st = true → st.cycles + 1 > 10 →
      processCycle c env q st = .ret loopDiagMsg st.history [] false) ∧
    (∀ (c : Client) (env : Env) (q : String) (fuel : Nat) (hist : List Msg),
      (processQuery c env q fuel hist).dc ≤ 10) := by
  refine ⟨?_, ?_, ?_, ?_⟩
  · intro c env q st st2 calls d h
    have hs := processCycle_spec c env q st
    rw [h] at hs
    cases hd : d with
    | true =>
      rw [hd] at hs
      have := hs.2.2.1 rfl
      omega
    | false =>
      rw [hd] at hs
      have := hs.2.2.2 rfl
      omega
  · intro c env q st st2 calls d h
    have hs := processCycle_spec c env q st
    rw [h] at hs
    constructor
    · intro h1
      exact (hs.2.2.1 (hs.2.1.trans h1)).1
    · intro h1
      exact hs.2.2.2 (hs.2.1.trans h1)
  · intro c env q st h1 h2
    exact processCycle_capped c env q st h1 h2
  · intro c env q fuel hist
    have h := runLoop_dc_le c env q fuel ⟨initialHistory hist q, 0, 0, 0, 0, false⟩
    unfold processQuery
    omega

/-- Witness for C2: a continuing dispatch cycle increments the counter to 1;
a capped state returns the diagnostic with an empty trace; a provider that
always answers with a fresh tool call reaches the cap with `dc = 10`. -/
theorem cycle_cap_bounds_witness :
    (0 ≤ (1 : Nat) ∧ 1 ≤ 0 + 1) ∧
    processCycle
      { toolsMap := [("t", ⟨"s", "", JValue.jsObj []⟩)], sessions := ["s"], toolTimeout := 120 }
      { stream := fun _ => [⟨none, none, [⟨0, some "c1", some "nosuch", "\x7b\x7d"⟩]⟩]
        confirm := fun _ => ""
        call := fun _ _ _ => .ok "fine"
        browserWait := id }
      "hello" ⟨[Msg.user "hello"], 10, 0, 0, 0, false⟩
      = .ret loopDiagMsg [Msg.user "hello"] [] false ∧
    (processQuery
      { toolsMap := [("t", ⟨"s", "", JValue.jsObj []⟩)], sessions := ["s"], toolTimeout := 120 }
      { stream := fun _ => [⟨none, none, [⟨0, some "c1", some "nosuch", "\x7b\x7d"⟩]⟩]
        confirm := fun _ => ""
        call := fun _ _ _ => .ok "fine"
        browserWait := id }
      "hello" 12 []).dc ≤ 10 :=
  ⟨cycle_cap_bounds.1
      { toolsMap := [("t", ⟨"s", "", JValue.jsObj []⟩)], sessions := ["s"], toolTimeout := 120 }
      { stream := fun _ => [⟨none, none, [⟨0, some "c1", some "nosuch", "\x7b\x7d"⟩]⟩]
        confirm := fun _ => ""
        call := fun _ _ _ => .ok "fine"
        browserWait := id }
      "hello" ⟨[Msg.user "hello"], 0, 0, 0, 0, false⟩
      ⟨[Msg.user "hello", Msg.toolResult (unknownToolContent "nosuch") (some "c1")], 1, 1, 0, 0, false⟩
      [] true (by rfl),
   cycle_cap_bounds.2.2.1 _ _ "hello" ⟨[Msg.user "hello"], 10, 0, 0, 0, false⟩
      (by decide) (by decide),
   cycle_cap_bounds.2.2.2 _ _ "hello" 12 []⟩

/-! ## Claim C9 — the conversation history is append-only -/

/-- C9: every step of `process_query` only appends to the conversation
history: each cycle outcome's history extends the incoming one as a prefix
(including the exception outcome), a successful non-error dispatch appends
exactly the produced entries (so failures are appended as tool-result error
entries rather than dropped), a whole `process_query` run extends the
initial history, and the history is emptied only by the explicit `clear`
reset of the chat loop. -/
theorem history_append_only :
    (∀ (c : Client) (env : Env) (q : String) (st st2 : LoopSt) (calls : List PCall) (d : Bool),
      processCycle c env q st = .next st2 calls d → st.history <+: st2.history) ∧
    (∀ (c : Client) (env : Env) (q : String) (st : LoopSt) (a : String) (hh : List Msg)
        (calls : List PCall) (d : Bool),
      processCycle c env q st = .ret a hh calls d → st.history <+: hh) ∧
    (∀ (c : Client) (env : Env) (q : String) (st : LoopSt) (hh : List Msg) (calls : List PCall),
      processCycle c env q st = .exn hh calls → st.history <+: hh) ∧
    (∀ (c : Client) (env : Env) (q : String) (st : LoopSt) (entries : List ToolResultEntry)
        (calls : List PCall) (pc2 : Nat),
      cycleHasToolCalls env st = true → st.cycles + 1 ≤ 10 →
      processToolCalls c env st.pc (cycleNorm env st) = .ok entries calls pc2 →
      (entries.all (fun e => pyStartsWith e.content ("Error:"))) = false →
      processCycle c env q st
        = .next ⟨st.history ++ cycleAssist env st ++ entries.map entryMsg,
                 st.cycles + 1, st.k + 1, pc2, cycleUcAfter env st, st.attempted⟩ calls true) ∧
    (∀ (c : Client) (env : Env) (q : String) (fuel : Nat) (hist : List Msg),
      hist <+: (processQuery c env q fuel hist).history) ∧
    (∀ (c : Client) (env : Env) (fuel : Nat) (hist : List Msg),
      chatStepHistory c env fuel hist "clear" = []) := by
  refine ⟨?_, ?_, ?_, ?_, ?_, ?_⟩
  · intro c env q st st2 calls d h
    have hs := processCycle_spec c env q st
    rw [h] at hs
    exact hs.1
  · intro c env q st a hh calls d h
    have hs := processCycle_spec c env q st
    rw [h] at hs
    exact hs.1
  · intro c env q st hh calls h
    have hs := processCycle_spec c env q st
    rw [h] at hs
    exact hs
  · intro c env q st entries calls pc2 h1 h2 hp herr
    rw [processCycle_dispatch_eq c env q st entries calls pc2 h1 h2 hp,
      if_neg (by rw [herr]; exact Bool.noConfusion)]
  · intro c env q fuel hist
    unfold processQuery
    refine List.IsPrefix.trans ?_ (runLoop_extends c env q fuel _)
    unfold initialHistory
    by_cases hh : hist.isEmpty = true
    · have hnil : hist = [] := List.isEmpty_iff.mp hh
      subst hnil
      simp
    · rw [if_neg hh]
      exact List.prefix_append _ _
  · intro c env fuel hist
    rfl

/-- Witness for C9 at concrete states: a returning cycle keeps its history
prefix; a non-error dispatch appends exactly its entry; `clear` empties. -/
theorem history_append_only_witness :
    ([Msg.user "hi"] <+:
      ([Msg.user "hi"] : List Msg)) ∧
    processCycle
      { toolsMap := [("t", ⟨"s", "", JValue.jsObj []⟩)], sessions := ["s"], toolTimeout := 120 }
      { stream := fun _ => [⟨none, none, [⟨0, some "c1", some "t", "\x7b\x7d"⟩]⟩]
        confirm := fun _ => ""
        call := fun _ _ _ => .ok "fine"
        browserWait := id }
      "hi" ⟨[Msg.user "hi"], 0, 0, 0, 0, false⟩
      = .next ⟨[Msg.user "hi"]
                 ++ cycleAssist
                      { stream := fun _ => [⟨none, none, [⟨0, some "c1", some "t", "\x7b\x7d"⟩]⟩]
                        confirm := fun _ => ""
                        call := fun _ _ _ => .ok "fine"
                        browserWait := id }
                      ⟨[Msg.user "hi"], 0, 0, 0, 0, false⟩
                 ++ [Msg.toolResult "fine" (some "c1")],
               1, 1, 0, 0, false⟩ [("s", "t", JValue.jsObj [])] true ∧
    chatStepHistory
      { toolsMap := [], sessions := [], toolTimeout := 120 }
      { stream := fun _ => [], confirm := fun _ => "",
        call := fun _ _ _ => .ok "", browserWait := id }
      1 [Msg.user "old"] "clear" = [] :=
  ⟨history_append_only.2.1
      { toolsMap := [("t", ⟨"s", "", JValue.jsObj []⟩)], sessions := ["s"], toolTimeout := 120 }
      { stream := fun _ => [⟨none, some "bye", []⟩], confirm := fun _ => "",
        call := fun _ _ _ => .ok "", browserWait := id }
      "hi" ⟨[Msg.user "hi"], 0, 0, 0, 0, false⟩ "bye" [Msg.user "hi"] [] false (by rfl),
   history_append_only.2.2.2.1
      { toolsMap := [("t", ⟨"s", "", JValue.jsObj []⟩)], sessions := ["s"], toolTimeout := 120 }
      { stream := fun _ => [⟨none, none, [⟨0, some "c1", some "t", "\x7b\x7d"⟩]⟩]
        confirm := fun _ => ""
        call := fun _ _ _ => .ok "fine"
        browserWait := id }
      "hi" ⟨[Msg.user "hi"], 0, 0, 0, 0, false⟩ [⟨"fine", some "c1"⟩]
      [("s", "t", JValue.jsObj [])] 0 (by decide) (by decide) (by rfl) (by decide),
   history_append_only.2.2.2.2.2
      { toolsMap := [], sessions := [], toolTimeout := 120 }
      { stream := fun _ => [], confirm := fun _ => "",
        call := fun _ _ _ => .ok "", browserWait := id }
      1 [Msg.user "old"]⟩

/-! ## Claim C8 — retry with exponential backoff, per-descriptor isolation -/

/-- The retry loop under a connection that never succeeds: all remaining
attempts are made, with sleeps `2 ^ a` for `a = attempt, …, maxRetries - 2`. -/
theorem connectLoopAux_fail (ok : Nat → Bool) (h : ∀ k, ok k = false) (mr : Nat) :
    ∀ (rem a : Nat), rem + a = mr →
      connectLoopAux ok mr rem a
        = ⟨false, rem, (List.range' a (mr - 1 - a)).map (fun j => 2 ^ j)⟩ := by
  intro rem
  induction rem with
  | zero =>
    intro a hn
    have h1 : mr - 1 - a = 0 := by omega
    rw [h1]
    rfl
  | succ m ih =>
    intro a hn
    unfold connectLoopAux
    rw [h a]
    simp only [Bool.false_eq_true, if_false]
    rw [ih (a + 1) (by omega)]
    by_cases hlast : a < mr - 1
    · rw [if_pos hlast]
      have hr : mr - 1 - a = (mr - 1 - (a + 1)) + 1 := by omega
      rw [hr, List.range'_succ, List.map_cons]
      simp
    · rw [if_neg hlast]
      have h1 : mr - 1 - (a + 1) = 0 := by omega
      have h2 : mr - 1 - a = 0 := by omega
      simp [h1, h2]

/-- The whole retry loop under a never-succeeding connection. -/
theorem connectLoop_fail (ok : Nat → Bool) (h : ∀ k, ok k = false) (mr : Nat) :
    connectLoop ok mr = ⟨false, mr, (List.range' 0 (mr - 1)).map (fun j => 2 ^ j)⟩ := by
  unfold connectLoop
  have hx := connectLoopAux_fail ok h mr mr 0 (by omega)
  simpa using hx

/-- `2 ^ ·` applied to a block of consecutive attempt numbers is strictly
increasing between consecutive elements. -/
theorem chain_pow2_range' : ∀ (n a : Nat),
    List.Chain' (· < ·) ((List.range' a n).map (fun j => 2 ^ j)) := by
  intro n
  induction n with
  | zero => intro a; exact List.chain'_nil
  | succ m ih =>
    intro a
    rw [List.range'_succ, List.map_cons]
    cases m with
    | zero => exact List.chain'_singleton _
    | succ m2 =>
      rw [List.range'_succ, List.map_cons]
      refine List.Chain'.cons ?_ ?_
      · exact Nat.pow_lt_pow_right (by omega) (by omega)
      · have h := ih (a + 1)
        rw [List.range'_succ, List.map_cons] at h
        exact h

/-- `loadStep` reads only the session registry and the success count, so two
load states agreeing there stay in agreement. -/
theorem loadFold_congr (env : ConnEnv) (dmr : Nat) :
    ∀ (descs : List ServerDesc) (st1 st2 : LoadSt),
      st1.sessions = st2.sessions → st1.successes = st2.successes →
      (descs.foldl (loadStep env dmr) st1).sessions
          = (descs.foldl (loadStep env dmr) st2).sessions ∧
      (descs.foldl (loadStep env dmr) st1).successes
          = (descs.foldl (loadStep env dmr) st2).successes := by
  intro descs
  induction descs with
  | nil => intro st1 st2 hsess hsucc; exact ⟨hsess, hsucc⟩
  | cons d rest ih =>
    intro st1 st2 hsess hsucc
    rw [List.foldl_cons, List.foldl_cons]
    apply ih
    · unfold loadStep
      cases d.url with
      | some u => simp [connectToSseServer, hsess]
      | none =>
        cases d.command with
        | none => simpa using hsess
        | some cmd => simp [connectToLocalServer, hsess]
    · unfold loadStep
      cases d.url with
      | some u => simp [connectToSseServer, hsess, hsucc]
      | none =>
        cases d.command with
        | none => simpa using hsucc
        | some cmd => simp [connectToLocalServer, hsess, hsucc]

/-- C8: for a local-transport descriptor whose connection attempts always
fail and which is not already connected, `connect_to_local_server` makes
exactly `max_retries` attempts with the sleeps `2^0, 2^1, …` (strictly
increasing between consecutive attempts), reports failure, and leaves the
session registry unchanged; `load_servers_from_config` then continues with
the remaining descriptors, whose registry and success count are as if the
failing descriptor were absent. -/
theorem retry_backoff_and_isolation :
    (∀ (env : ConnEnv) (dmr : Nat) (sessions : List String) (sid : String) (mr : Nat),
      (∀ k, env.localOk sid k = false) → sessions.contains sid = false →
      connectToLocalServer env dmr sessions sid (some mr)
        = (sessions, ⟨false, mr, (List.range' 0 (mr - 1)).map (fun j => 2 ^ j)⟩)) ∧
    (∀ mr : Nat, List.Chain' (· < ·) ((List.range' 0 (mr - 1)).map (fun j => 2 ^ j))) ∧
    (∀ (env : ConnEnv) (dmr : Nat) (st : LoadSt) (bad : ServerDesc) (post : List ServerDesc),
      bad.url = none → bad.command.isSome = true →
      (∀ k, env.localOk bad.id k = false) → st.sessions.contains bad.id = false →
      ((bad :: post).foldl (loadStep env dmr) st).sessions
          = (post.foldl (loadStep env dmr) st).sessions ∧
      ((bad :: post).foldl (loadStep env dmr) st).successes
          = (post.foldl (loadStep env dmr) st).successes) := by
  have hconn : ∀ (env : ConnEnv) (dmr : Nat) (sessions : List String) (sid : String)
      (mro : Option Nat),
      (∀ k, env.localOk sid k = false) → sessions.contains sid = false →
      connectToLocalServer env dmr sessions sid mro
        = (sessions,
            ⟨false, mro.getD dmr,
              (List.range' 0 (mro.getD dmr - 1)).map (fun j => 2 ^ j)⟩) := by
    intro env dmr sessions sid mro hfail hnot
    unfold connectToLocalServer
    rw [hnot]
    simp only [Bool.false_eq_true, if_false]
    rw [connectLoop_fail (env.localOk sid) hfail (mro.getD dmr)]
    simp
  refine ⟨?_, ?_, ?_⟩
  · intro env dmr sessions sid mr hfail hnot
    have h := hconn env dmr sessions sid (some mr) hfail hnot
    simpa using h
  · intro mr
    exact chain_pow2_range' (mr - 1) 0
  · intro env dmr st bad post hurl hcmd hfail hnot
    rw [List.foldl_cons]
    have hstep : (loadStep env dmr st bad).sessions = st.sessions ∧
        (loadStep env dmr st bad).successes = st.successes := by
      unfold loadStep
      rw [hurl]
      match hc : bad.command with
      | none => rw [hc] at hcmd; simp at hcmd
      | some cmd =>
        have h := hconn env dmr st.sessions bad.id bad.max_retries hfail hnot
        simp [h]
    exact loadFold_congr env dmr post _ st hstep.1 hstep.2

/-- Witness for C8: three always-failing attempts sleep 1 s then 2 s, the
descriptor reports failure, and a following healthy descriptor still
connects with the overall count unaffected. -/
theorem retry_backoff_and_isolation_witness :
    connectToLocalServer
      { localOk := fun _ _ => false, sseOk := fun _ _ => false } 3 [] "bad" (some 3)
      = ([], ⟨false, 3, [1, 2]⟩) ∧
    List.Chain' (· < ·) ([1, 2] : List Nat) ∧
    ((loadServersFromConfig
        { localOk := fun sid _ => sid == "good", sseOk := fun _ _ => false } 3
        [⟨"bad", none, some "python", [], none, some 3⟩,
         ⟨"good", none, some "python", [], none, none⟩]).sessions = ["good"] ∧
     (loadServersFromConfig
        { localOk := fun sid _ => sid == "good", sseOk := fun _ _ => false } 3
        [⟨"bad", none, some "python", [], none, some 3⟩,
         ⟨"good", none, some "python", [], none, none⟩]).successes = 1) := by
  refine ⟨?_, List.Chain'.cons (by omega) (List.chain'_singleton _), ?_⟩
  · have h := retry_backoff_and_isolation.1
      { localOk := fun _ _ => false, sseOk := fun _ _ => false } 3 [] "bad" 3
      (fun _ => rfl) (by rfl)
    rw [h]
    rfl
  · have h := retry_backoff_and_isolation.2.2
      { localOk := fun sid _ => sid == "good", sseOk := fun _ _ => false } 3
      ⟨[], 0, []⟩ ⟨"bad", none, some "python", [], none, some 3⟩
      [⟨"good", none, some "python", [], none, none⟩]
      (by rfl) (by rfl) (fun _ => rfl) (by rfl)
    unfold loadServersFromConfig
    rw [h.1, h.2]
    exact ⟨by rfl, by rfl⟩

end MCP
